import Mathlib

/-!
# config-db: reconciliation store and Azure scraper

A shallow embedding of

* `db/config_scraper.go`: `DeleteScrapeConfig`, `PersistScrapeConfigFromFile`,
  `PersistScrapeConfigFromCRD`;
* `scrapers/azure/azure.go`: the category fetches, `Scrape`, `getARMID`, `getARMType`,
  `extractResourceGroup`.

Storage is a record of tables (lists of rows); a SQL statement is a function on that record.
Every statement is committed on its own, because the source runs them on the package-level
handle `db` and never opens a transaction. What the database, the clock and the network
answer is passed in explicitly.
-/

namespace ConfigDB

/-! ## Storage -/

/-- Truth value of a SQL condition: TRUE, FALSE or NULL (unknown). -/
inductive Tri where
  | yes
  | no
  | null
  deriving DecidableEq, Repr

/-- SQL `AND`. -/
def Tri.and : Tri → Tri → Tri
  | .no, _ => .no
  | _, .no => .no
  | .yes, .yes => .yes
  | _, _ => .null

/-- SQL `NOT`. -/
def Tri.not : Tri → Tri
  | .yes => .no
  | .no => .yes
  | .null => .null

/-- A `WHERE` clause keeps a row only when its condition is TRUE. -/
def Tri.holds : Tri → Bool
  | .yes => true
  | _ => false

/-- SQL `column = ?` for a nullable column and a bound (non-null) parameter. -/
def sqlEq (column : Option String) (param : String) : Tri :=
  match column with
  | none => .null
  | some v => if v = param then .yes else .no

/-- SQL `x IN (subquery)` for a non-null `x`: TRUE when some row of the subquery equals `x`,
otherwise NULL when the subquery holds a NULL, otherwise FALSE. -/
def sqlIn (x : String) (subquery : List (Option String)) : Tri :=
  if subquery.contains (some x) then .yes
  else if subquery.contains none then .null
  else .no

/-- SQL `x NOT IN (subquery)`. -/
def sqlNotIn (x : String) (subquery : List (Option String)) : Tri :=
  (sqlIn x subquery).not

/-- Row of `config_scrapers` (`models.ConfigScraper`); the zero id is `""`. -/
structure ConfigScraper where
  ID : String
  Name : String
  Spec : String
  Source : String
  DeletedAt : Option Nat
  deriving DecidableEq, Repr

/-- Row of `config_items`, with the columns the statements of this file read or write. -/
structure ConfigItem where
  id : String
  scraper_id : Option String
  deleted_at : Option Nat
  deriving DecidableEq, Repr

/-- Row of `evidences`; `config_id` is a nullable reference to a config item. -/
structure Evidence where
  id : String
  config_id : Option String
  deriving DecidableEq, Repr

/-- The tables. -/
structure Store where
  config_scrapers : List ConfigScraper
  config_items : List ConfigItem
  evidences : List Evidence
  deriving DecidableEq, Repr

/-- What the database answers to the three statements of `DeleteScrapeConfig`: for each
statement the error it raises, if any. A statement that raises an error changes nothing. -/
structure DeleteFaults where
  scraperUpdate : Option String
  detach : Option String
  softDelete : Option String
  deriving DecidableEq, Repr

/-- No statement fails. -/
def DeleteFaults.none : DeleteFaults := ⟨Option.none, Option.none, Option.none⟩

/-- `SELECT config_id FROM evidences` (the only entry of `foreignKeyTables`, so the joined
query holds no `UNION`). -/
def selectQuery (db : Store) : List (Option String) :=
  db.evidences.map (·.config_id)

/-- `UPDATE config_scrapers SET deleted_at = <now> WHERE id = ?`. -/
def updateScraperDeletedAt (now : Nat) (id : String) (db : Store) : Store :=
  { db with config_scrapers := db.config_scrapers.map fun s =>
      if (sqlEq (some s.ID) id).holds then { s with DeletedAt := some now } else s }

/-- The detach statement on one row: the row is updated when its `WHERE` condition
`id IN (selectQuery) AND scraper_id = ?` is TRUE. -/
def detachRow (subquery : List (Option String)) (id : String) (c : ConfigItem) : ConfigItem :=
  if ((sqlIn c.id subquery).and (sqlEq c.scraper_id id)).holds then { c with scraper_id := none }
  else c

/-- The soft-delete statement on one row: the row is updated when its `WHERE` condition
`id NOT IN (selectQuery) AND scraper_id = ?` is TRUE. -/
def softDeleteRow (subquery : List (Option String)) (now : Nat) (id : String) (c : ConfigItem) :
    ConfigItem :=
  if ((sqlNotIn c.id subquery).and (sqlEq c.scraper_id id)).holds then
    { c with deleted_at := some now }
  else c

/-- `UPDATE config_items SET scraper_id = NULL WHERE id IN (selectQuery) AND scraper_id = ?`.
The subquery is evaluated on the state the statement starts from. -/
def detachLinked (id : String) (db : Store) : Store :=
  { db with config_items := db.config_items.map (detachRow (selectQuery db) id) }

/-- `UPDATE config_items SET deleted_at = NOW() WHERE id NOT IN (selectQuery) AND scraper_id = ?`. -/
def softDeleteRemaining (now : Nat) (id : String) (db : Store) : Store :=
  { db with config_items := db.config_items.map (softDeleteRow (selectQuery db) now id) }

/-- `DeleteScrapeConfig(id)`: the three statements in order, each committed on its own; the
first error is returned at once. `goNow` is `time.Now()`, `dbNow` is the database `NOW()`.
Returns the storage after the call and the error, if any. -/
def DeleteScrapeConfig (faults : DeleteFaults) (goNow dbNow : Nat) (id : String) (db : Store) :
    Store × Option String :=
  match faults.scraperUpdate with
  | some err => (db, some err)
  | none =>
    let db1 := updateScraperDeletedAt goNow id db
    match faults.detach with
    | some err => (db1, some err)
    | none =>
      let db2 := detachLinked id db1
      match faults.softDelete with
      | some err => (db2, some err)
      | none => (softDeleteRemaining dbNow id db2, none)

/-- `v1.ScrapeConfig`, with the fields `db/config_scraper.go` reads. -/
structure ScrapeConfig where
  UID : String
  Namespace : String
  Name : String
  Spec : String
  deriving DecidableEq, Repr

/-- The two `api/v1` methods `PersistScrapeConfigFromFile` calls; their code is not among
the sources, so they are parameters. `ToModel` gives the model to look up (its `Spec` is the
serialised spec), `GenerateName` the display name of a new row. -/
structure V1 where
  ToModel : ScrapeConfig → Except String ConfigScraper
  GenerateName : String → Except String String

/-- What the database answers to one call of `PersistScrapeConfigFromFile`: the error of the
lookup, the error of the insert, and the id the column default generates for a new row. -/
structure PersistWorld where
  findFault : Option String
  createFault : Option String
  newID : String
  deriving DecidableEq, Repr

/-- The constant `models.SourceConfigFile`. -/
def SourceConfigFile : String := "ConfigFile"

/-- The constant `models.SourceCRD`. -/
def SourceCRD : String := "KubernetesCRD"

/-- `db.Table("config_scrapers").Where("spec = ?", spec).Find(&configScraper)`: the first row
whose spec equals the parameter, scanned into the destination. -/
def findBySpec (spec : String) (db : Store) : Option ConfigScraper :=
  db.config_scrapers.find? fun s => (sqlEq (some s.Spec) spec).holds

/-- `db.Create(&configScraper)`: a zero id is filled from the column default; the primary key
must be new; the row is appended. Returns the storage, the row as written and the error. -/
def create (w : PersistWorld) (configScraper : ConfigScraper) (db : Store) :
    Store × ConfigScraper × Option String :=
  match w.createFault with
  | some err => (db, configScraper, some err)
  | none =>
    let row := if configScraper.ID = "" then { configScraper with ID := w.newID } else configScraper
    if db.config_scrapers.any (fun s => s.ID == row.ID) then
      (db, configScraper, some "duplicate key value violates unique constraint")
    else
      ({ db with config_scrapers := db.config_scrapers ++ [row] }, row, none)

/-- `PersistScrapeConfigFromFile(scrapeConfig)`: look the serialised spec up; return the row
found; otherwise name the model, tag it as coming from a file and insert it. -/
def PersistScrapeConfigFromFile (api : V1) (w : PersistWorld) (scrapeConfig : ScrapeConfig)
    (db : Store) : Store × ConfigScraper × Option String :=
  match api.ToModel scrapeConfig with
  | .error err => (db, ⟨"", "", "", "", none⟩, some err)
  | .ok configScraper =>
    match w.findFault with
    | some err => (db, configScraper, some err)
    | none =>
      match findBySpec configScraper.Spec db with
      | some found => (db, found, none)
      | none =>
        match api.GenerateName scrapeConfig.Spec with
        | .error err =>
          (db, { configScraper with Name := "", Source := SourceConfigFile }, some err)
        | .ok name =>
          create w { configScraper with Name := name, Source := SourceConfigFile } db

/-- `PersistScrapeConfigFromCRD(scrapeConfig)`: `Save` keyed on the CRD's UID. The row with that
id is replaced; when there is none the row is inserted. -/
def PersistScrapeConfigFromCRD (scrapeConfig : ScrapeConfig) (db : Store) : Store :=
  let configScraper : ConfigScraper :=
    { ID := scrapeConfig.UID
      Name := scrapeConfig.Namespace ++ "/" ++ scrapeConfig.Name
      Spec := scrapeConfig.Spec
      Source := SourceCRD
      DeletedAt := none }
  if db.config_scrapers.any (fun s => s.ID == configScraper.ID) then
    { db with config_scrapers := db.config_scrapers.map fun s =>
        if s.ID = configScraper.ID then configScraper else s }
  else
    { db with config_scrapers := db.config_scrapers ++ [configScraper] }

/-- Number of `config_scrapers` rows whose spec equals `spec`. -/
def specCount (spec : String) (db : Store) : Nat :=
  (db.config_scrapers.filter fun s => s.Spec = spec).length

/-! ## Strings

Go strings are taken to be valid UTF-8, so a string is its sequence of runes. -/

/-- The Unicode case table behind `unicode.ToLower`; it is not part of the sources, so it is
a parameter. -/
structure Unicode where
  ToLower : Char → Char

/-- The ASCII part of the case table: `A`..`Z` go to `a`..`z`, every other rune stays. -/
def ascii : Unicode := ⟨Char.toLower⟩

/-- What the resolver needs of a case table: lower-casing neither makes nor removes the
path separator and the blank. -/
def Unicode.Separating (U : Unicode) : Prop :=
  ∀ c : Char, (U.ToLower c = '/' ↔ c = '/') ∧ (U.ToLower c = ' ' ↔ c = ' ')

/-- `strings.ToLower`. -/
def ToLower (U : Unicode) (s : String) : String :=
  ⟨s.data.map U.ToLower⟩

/-- Drop the leading runes that belong to the cutset. -/
def trimLeft (cutset : List Char) (s : List Char) : List Char :=
  s.dropWhile fun c => cutset.contains c

/-- `strings.Trim(s, cutset)`: drop the leading and trailing runes that belong to the cutset. -/
def Trim (s cutset : String) : String :=
  ⟨(trimLeft cutset.data (trimLeft cutset.data s.data).reverse).reverse⟩

/-- `strings.TrimPrefix(s, p)`: `s` without the leading `p`, or `s` when it does not start
with `p`. -/
def TrimPrefix (s p : String) : String :=
  if p.data.isPrefixOf s.data then ⟨s.data.drop p.data.length⟩ else s

/-- Split a rune sequence at every occurrence of the separator rune. -/
def splitRunes (sep : Char) : List Char → List (List Char)
  | [] => [[]]
  | c :: cs =>
    if c = sep then [] :: splitRunes sep cs
    else
      match splitRunes sep cs with
      | [] => [[c]]
      | seg :: rest => (c :: seg) :: rest

/-- `strings.Split(s, sep)` for a separator of one rune (the source splits on `"/"`). -/
def Split (s : String) (sep : Char) : List String :=
  (splitRunes sep s.data).map String.mk

/-- Does `pat` occur in `s` as a contiguous run. -/
def hasInfix (pat : List Char) : List Char → Bool
  | [] => pat.isEmpty
  | c :: cs => pat.isPrefixOf (c :: cs) || hasInfix pat cs

/-! ## Payloads -/

/-- A JSON document; an object is the list of its entries in serialisation order. -/
inductive Json where
  | null
  | bool (b : Bool)
  | num (n : Int)
  | str (s : String)
  | arr (items : List Json)
  | obj (entries : List (String × Json))

/-- The `Config` of a result, a Go value of type `any`: either a value that `json.Marshal`
serialises as the given document, or a value it rejects with the given error. -/
inductive Payload where
  | value (doc : Json)
  | unsupported (err : String)

/-- `json.Marshal`. -/
def Marshal : Payload → Except String Json
  | .value doc => .ok doc
  | .unsupported err => .error err

/-- The jq filter `test(re)` for a pattern without regular-expression operators, such as
`"etag"`: does the pattern occur in the string. The match is case-sensitive (no `"i"` flag). -/
def test (re s : String) : Bool :=
  hasInfix re.data s.data

mutual
/-- The jq program of `Scrape`,
`walk(if type == "object" then with_entries(select(.key | test("etag") | not)) else . end)`:
`walk` rewrites the children first and then applies the filter to the rewritten value. -/
def walk : Json → Json
  | .arr items => .arr (walkItems items)
  | .obj entries => .obj ((walkEntries entries).filter fun e => !test "etag" e.1)
  | doc => doc
/-- The program `walk` on every element of an array. -/
def walkItems : List Json → List Json
  | [] => []
  | x :: xs => walk x :: walkItems xs
/-- The program `walk` on every value of an object. -/
def walkEntries : List (String × Json) → List (String × Json)
  | [] => []
  | (k, v) :: rest => (k, walk v) :: walkEntries rest
end

/-- Modelled from the spec: `utils.ParseJQ` is not among the sources. It runs the jq program
it is given on the document and returns the output; the program passed by `Scrape` is the
literal embedded as `walk`, which is defined on every document. -/
def ParseJQ (rawConfig : Json) : Except String Json :=
  .ok (walk rawConfig)

mutual
/-- The normaliser in the spec's words: remove every object key for which `volatile` holds,
at every depth, and keep everything else where it is. -/
def stripKeys (volatile : String → Bool) : Json → Json
  | .arr items => .arr (stripItems volatile items)
  | .obj entries => .obj (stripEntries volatile entries)
  | doc => doc
/-- The normaliser on the elements of an array. -/
def stripItems (volatile : String → Bool) : List Json → List Json
  | [] => []
  | x :: xs => stripKeys volatile x :: stripItems volatile xs
/-- The normaliser on the entries of an object: a volatile entry is dropped unvisited. -/
def stripEntries (volatile : String → Bool) : List (String × Json) → List (String × Json)
  | [] => []
  | (k, v) :: rest =>
    if volatile k then stripEntries volatile rest
    else (k, stripKeys volatile v) :: stripEntries volatile rest
end

mutual
/-- Every object key of a document, at every depth. -/
def keysOf : Json → List String
  | .arr items => keysOfItems items
  | .obj entries => keysOfEntries entries
  | _ => []
/-- Every object key inside the elements of an array. -/
def keysOfItems : List Json → List String
  | [] => []
  | x :: xs => keysOf x ++ keysOfItems xs
/-- Every object key of the entries of an object, the entries' own keys included. -/
def keysOfEntries : List (String × Json) → List String
  | [] => []
  | (k, v) :: rest => k :: (keysOf v ++ keysOfEntries rest)
end

/-! ## The Azure scraper -/

/-- The constant `ConfigTypePrefix`. -/
def ConfigTypePrefix : String := "Azure::"

/-- `v1.BaseScraper`, copied unread from the block into every mapped result. -/
structure BaseScraper where
  raw : String
  deriving DecidableEq, Repr

/-- `types.EnvVar`: a name to look up and the resolved static value. -/
structure EnvVar where
  Name : String
  ValueStatic : String
  deriving DecidableEq, Repr

/-- `v1.Azure`, one Azure block of the scrape spec. -/
structure Azure where
  BaseScraper : BaseScraper
  ConnectionName : String
  SubscriptionID : String
  ClientID : EnvVar
  ClientSecret : EnvVar
  TenantID : String
  deriving DecidableEq, Repr

/-- A named connection as `ctx.HydrateConnection` returns it. -/
structure Connection where
  Username : String
  Password : String
  Properties : List (String × String)
  deriving DecidableEq, Repr

/-- `v1.ExternalID`. -/
structure ExternalID where
  ConfigType : String
  ExternalID : List String
  deriving DecidableEq, Repr

/-- `v1.RelationshipResult`: an edge from `ConfigExternalID` to `RelatedExternalID`. -/
structure RelationshipResult where
  ConfigExternalID : ExternalID
  RelatedExternalID : ExternalID
  Relationship : String
  deriving DecidableEq, Repr

/-- `v1.ScrapeResult`, with the fields the Azure scraper reads or writes. -/
structure ScrapeResult where
  BaseScraper : BaseScraper
  ID : String
  Name : String
  Config : Option Payload
  ConfigClass : String
  Type_ : String
  RelationshipResults : List RelationshipResult
  Error : Option String

/-- The zero `v1.ScrapeResult` carrying only an error. -/
def errorResult (err : String) : ScrapeResult :=
  { BaseScraper := ⟨""⟩, ID := "", Name := "", Config := none, ConfigClass := "", Type_ := "",
    RelationshipResults := [], Error := some err }

/-- An item of a page as the SDK returns it; every field is a pointer. For a subscription
`Name` is its `DisplayName`, and `Type_` (the field `Type`) is not read. `Body` is the item itself as
`json.Marshal` sees it. -/
structure NativeItem where
  ID : Option String
  Name : Option String
  Type_ : Option String
  Body : Payload

/-- One `NextPage` call: an error, or the items of the page. -/
abbrev Page := Except String (List NativeItem)

/-- A pager: the answers of its successive `NextPage` calls; `More()` holds while answers
remain. -/
abbrev Pager := List Page

/-- The categories fetched through a pager, in the order `Scrape` calls them. -/
inductive Category where
  | resourceGroups
  | virtualMachines
  | loadBalancers
  | virtualNetworks
  | containerRegistries
  | firewalls
  | databases
  | k8s
  | subscriptions
  | storageAccounts
  | appServices
  | dns
  | privateDNSZones
  | trafficManagerProfiles
  | networkSecurityGroups
  | publicIPAddresses
  deriving DecidableEq, Repr

/-- The fetches `Scrape` runs before `fetchSubscriptions`, in call order. -/
def Category.beforeSubscriptions : List Category :=
  [.resourceGroups, .virtualMachines, .loadBalancers, .virtualNetworks, .containerRegistries,
   .firewalls, .databases, .k8s]

/-- The paged fetches `Scrape` runs after `fetchSubscriptions`, in call order. -/
def Category.afterSubscriptions : List Category :=
  [.storageAccounts, .appServices, .dns, .privateDNSZones, .trafficManagerProfiles,
   .networkSecurityGroups, .publicIPAddresses]

/-- All paged fetches in the order of lines 93 to 108 of `Scrape`. -/
def Category.declared : List Category :=
  Category.beforeSubscriptions ++ [.subscriptions] ++ Category.afterSubscriptions

/-- The `ConfigClass` each fetch gives its items. -/
def Category.configClass : Category → String
  | .resourceGroups => "ResourceGroup"
  | .virtualMachines => "VirtualMachine"
  | .loadBalancers => "LoadBalancer"
  | .virtualNetworks => "VirtualNetwork"
  | .containerRegistries => "ContainerRegistry"
  | .firewalls => "Firewall"
  | .databases => "RelationalDatabase"
  | .k8s => "KubernetesCluster"
  | .subscriptions => "Subscription"
  | .storageAccounts => "StorageAccount"
  | .appServices => "AppService"
  | .dns => "DNSZone"
  | .privateDNSZones => "PrivateDNSZone"
  | .trafficManagerProfiles => "TrafficManagerProfile"
  | .networkSecurityGroups => "SecurityGroup"
  | .publicIPAddresses => "PublicIPAddress"

/-- The message each fetch wraps a client construction error in. -/
def Category.clientMessage : Category → String
  | .resourceGroups => "failed to initiate resource group client: "
  | .virtualMachines => "failed to initiate virtual machine client: "
  | .loadBalancers => "failed to initiate load balancer client: "
  | .virtualNetworks => "failed to initiate virtual network client: "
  | .containerRegistries => "failed to initiate container registries client: "
  | .firewalls => "failed to initiate firewall client: "
  | .databases => "failed to initiate database client: "
  | .k8s => "failed to initiate k8s client: "
  | .subscriptions => "failed to initiate subscriptions client: "
  | .storageAccounts => "failed to initiate storage account client: "
  | .appServices => "failed to initiate app services client: "
  | .dns => "failed to initiate dns zone client: "
  | .privateDNSZones => "failed to initiate private DNS zones client: "
  | .trafficManagerProfiles => "failed to initiate traffic manager profile client: "
  | .networkSecurityGroups => "failed to initiate network security groups client: "
  | .publicIPAddresses => "failed to initiate public IP addresses client: "

/-- The message each fetch wraps a page error in. -/
def Category.pageMessage : Category → String
  | .resourceGroups => "failed reading resource group page: "
  | .virtualMachines => "failed read virtual machine page: "
  | .loadBalancers => "failed to read load balancer page: "
  | .virtualNetworks => "failed to read virtual network page: "
  | .containerRegistries => "failed to read container registries page: "
  | .firewalls => "failed to read firewall page: "
  | .databases => "failed to read database page: "
  | .k8s => "failed to read k8s page: "
  | .subscriptions => "failed to read subscription next page: "
  | .storageAccounts => "failed to read storage account next page: "
  | .appServices => "failed to read app services next page: "
  | .dns => "failed to read dns zone next page: "
  | .privateDNSZones => "failed to read private DNS zones page: "
  | .trafficManagerProfiles => "failed to read traffic manager profile next page: "
  | .networkSecurityGroups => "failed to read network security groups page: "
  | .publicIPAddresses => "failed to read public IP addresses page: "

/-- Modelled from the spec: `deref` is not among the sources; the spec gives the name of an
item as the "dereferenced display field (default empty)". -/
def deref (s : Option String) : String :=
  s.getD ""

/-- `getARMID`: the id, lower-cased. -/
def getARMID (U : Unicode) (id : Option String) : String :=
  ToLower U (deref id)

/-- `getARMType`: the prefix followed by the native type as it is. -/
def getARMType (rType : Option String) : String :=
  "Azure::" ++ deref rType

/-- `extractResourceGroup`. -/
def extractResourceGroup (resourceID : String) : String :=
  let resourceID := Trim resourceID " "
  let resourceID := TrimPrefix resourceID "/"
  let segments := Split resourceID '/'
  match segments with
  | _ :: _ :: s2 :: s3 :: _ => if s2 ≠ "resourcegroups" then "" else s3
  | _ => ""

/-- The result a fetch makes of one native item. `none` is the nil-pointer panic of
`*v.DisplayName` in `fetchSubscriptions`; every other fetch reads the name through `deref`. -/
def mapItem (U : Unicode) (config : Azure) (cat : Category) (v : NativeItem) :
    Option ScrapeResult :=
  match cat with
  | .subscriptions =>
    match v.Name with
    | none => none
    | some displayName =>
      some { BaseScraper := config.BaseScraper, ID := getARMID U v.ID, Name := displayName,
             Config := some v.Body, ConfigClass := cat.configClass,
             Type_ := getARMType (some "Subscription"), RelationshipResults := [], Error := none }
  | _ =>
    some { BaseScraper := config.BaseScraper, ID := getARMID U v.ID, Name := deref v.Name,
           Config := some v.Body, ConfigClass := cat.configClass,
           Type_ := getARMType v.Type_, RelationshipResults := [], Error := none }

/-- The inner loop over the items of one page; `none` as soon as an item panics. -/
def mapPage (U : Unicode) (config : Azure) (cat : Category) :
    List NativeItem → Option (List ScrapeResult)
  | [] => some []
  | v :: rest =>
    match mapItem U config cat v with
    | none => none
    | some r =>
      match mapPage U config cat rest with
      | none => none
      | some rs => some (r :: rs)

/-- The pager loop of a fetch, started with the results gathered so far: a page error ends
the fetch with one more, error-only result; a page appends its mapped items. -/
def readPages (U : Unicode) (config : Azure) (cat : Category) :
    Pager → List ScrapeResult → Option (List ScrapeResult)
  | [], results => some results
  | .error err :: _, results => some (results ++ [errorResult (cat.pageMessage ++ err)])
  | .ok items :: rest, results =>
    match mapPage U config cat items with
    | none => none
    | some mapped => readPages U config cat rest (results ++ mapped)

/-- One paged fetch (`fetchResourceGroups` ... `fetchPublicIPAddresses`): a client that cannot
be built gives one error-only result, otherwise the pager loop runs from no results. -/
def fetch (U : Unicode) (config : Azure) (cat : Category) (client : Except String Pager) :
    Option (List ScrapeResult) :=
  match client with
  | .error err => some [errorResult (cat.clientMessage ++ err)]
  | .ok pager => readPages U config cat pager []

/-- `fetchDatabases`. -/
def fetchDatabases (U : Unicode) (config : Azure) (client : Except String Pager) :
    Option (List ScrapeResult) :=
  fetch U config .databases client

/-- `fetchSubscriptions`. -/
def fetchSubscriptions (U : Unicode) (config : Azure) (client : Except String Pager) :
    Option (List ScrapeResult) :=
  fetch U config .subscriptions client

/-- What the outside answers while one Azure block is scraped. `advisor` is the result of
`fetchAdvisorAnalysis`, whose code is not among the sources. -/
structure BlockWorld where
  connection : Except String (Option Connection)
  clientID : Except String String
  clientSecret : Except String String
  credential : Except String Unit
  client : Category → Except String Pager
  advisor : List ScrapeResult

/-- Go map lookup `connection.Properties[key]`: the value, or `""` for an absent key. -/
def property (props : List (String × String)) (key : String) : String :=
  match props.find? fun e => e.1 == key with
  | some e => e.2
  | none => ""

/-- `hydrateConnection`. -/
def hydrateConnection (w : BlockWorld) (t : Azure) : Except String Azure :=
  if t.ConnectionName ≠ "" then
    match w.connection with
    | .error err => .error ("could not hydrate connection: " ++ err)
    | .ok none => .error ("connection " ++ t.ConnectionName ++ " not found")
    | .ok (some connection) =>
      .ok { t with
            ClientID := { t.ClientID with ValueStatic := connection.Username }
            ClientSecret := { t.ClientSecret with ValueStatic := connection.Password }
            TenantID := property connection.Properties "tenant" }
  else
    match w.clientID with
    | .error err => .error ("failed to get client id: " ++ err)
    | .ok clientID =>
      match w.clientSecret with
      | .error err => .error ("failed to get client secret: " ++ err)
      | .ok clientSecret =>
        .ok { t with
              ClientID := { t.ClientID with ValueStatic := clientID }
              ClientSecret := { t.ClientSecret with ValueStatic := clientSecret } }

/-- Modelled from the spec: `ScrapeResults.Errorf` is not among the sources; a connection
failure contributes one error-bearing result to the result stream. -/
def Errorf (results : List ScrapeResult) (err msg : String) : List ScrapeResult :=
  results ++ [errorResult (msg ++ ": " ++ err)]

/-- Run the paged fetches in the given order and append their results; `none` when one of
them panics. -/
def fetchEach (U : Unicode) (config : Azure) (w : BlockWorld) :
    List Category → Option (List ScrapeResult)
  | [] => some []
  | cat :: rest =>
    match fetch U config cat (w.client cat) with
    | none => none
    | some rs =>
      match fetchEach U config w rest with
      | none => none
      | some more => some (rs ++ more)

/-- Lines 93 to 109 of `Scrape`: the seventeen appends of one block, the advisor analysis
last. -/
def fetchAll (U : Unicode) (config : Azure) (w : BlockWorld) : Option (List ScrapeResult) :=
  match fetchEach U config w Category.declared with
  | none => none
  | some rs => some (rs ++ w.advisor)

/-- The receiver fields the loops of `Scrape` share: the results gathered so far and
`azure.config`, which is nil until a block gets its credentials. -/
structure ScrapeState where
  results : List ScrapeResult
  config : Option Azure

/-- One round of the first loop of `Scrape`. -/
def scrapeBlock (U : Unicode) (st : ScrapeState) (block : Azure × BlockWorld) :
    Option ScrapeState :=
  match hydrateConnection block.2 block.1 with
  | .error err => some { st with results := Errorf st.results err "failed to populate connection" }
  | .ok config =>
    match block.2.credential with
    | .error err =>
      some { st with results := Errorf st.results err "failed to get credentials for azure" }
    | .ok _ =>
      match fetchAll U config block.2 with
      | none => none
      | some rs => some { results := st.results ++ rs, config := some config }

/-- The first loop of `Scrape`, over the Azure blocks of the spec. -/
def scrapeBlocks (U : Unicode) : ScrapeState → List (Azure × BlockWorld) → Option ScrapeState
  | st, [] => some st
  | st, block :: rest =>
    match scrapeBlock U st block with
    | none => none
    | some st1 => scrapeBlocks U st1 rest

/-- Lines 121 to 128: replace the payload by its filtered form when it serialises and the
filter evaluates; keep it otherwise. -/
def normalizeConfig (r : ScrapeResult) : ScrapeResult :=
  match r.Config with
  | none => r
  | some payload =>
    match Marshal payload with
    | .error _ => r
    | .ok rawConfig =>
      match ParseJQ rawConfig with
      | .error _ => r
      | .ok conf => { r with Config := some (.value conf) }

/-- The edge of lines 144 to 148. -/
def subscriptionEdge (config : Azure) (r : ScrapeResult) : RelationshipResult :=
  { ConfigExternalID := { ExternalID := [r.ID], ConfigType := r.Type_ }
    RelatedExternalID :=
      { ExternalID := ["/subscriptions/" ++ config.SubscriptionID]
        ConfigType := ConfigTypePrefix ++ "SUBSCRIPTION" }
    Relationship := "Subscription" ++ TrimPrefix r.Type_ ConfigTypePrefix }

/-- The edge of lines 152 to 159. -/
def resourceGroupEdge (config : Azure) (r : ScrapeResult) : RelationshipResult :=
  { ConfigExternalID := { ExternalID := [r.ID], ConfigType := r.Type_ }
    RelatedExternalID :=
      { ExternalID :=
          ["/subscriptions/" ++ config.SubscriptionID ++ "/resourcegroups/" ++
            extractResourceGroup r.ID]
        ConfigType := ConfigTypePrefix ++ "MICROSOFT.RESOURCES/RESOURCEGROUPS" }
    Relationship := "Resourcegroup" ++ TrimPrefix r.Type_ ConfigTypePrefix }

/-- Lines 130 to 160 for a result whose type is not the subscription type, with
`azure.config` at hand: the switch sets the two flags, then the edges are appended. -/
def relate (config : Azure) (r : ScrapeResult) : ScrapeResult :=
  let flags : Bool × Bool :=
    if r.Type_ = ConfigTypePrefix ++ "MICROSOFT.RESOURCES/RESOURCEGROUPS" then (true, false)
    else (true, true)
  let r1 :=
    if flags.1 then
      { r with RelationshipResults := r.RelationshipResults ++ [subscriptionEdge config r] }
    else r
  if flags.2 && extractResourceGroup r.ID != "" then
    { r1 with RelationshipResults := r1.RelationshipResults ++ [resourceGroupEdge config r] }
  else r1

/-- The body of the second loop of `Scrape` for one result. `none` is the panic of reading
`azure.config.SubscriptionID` while `azure.config` is nil. -/
def resolveOne (config : Option Azure) (r : ScrapeResult) : Option ScrapeResult :=
  if r.ID = "" then some r
  else
    let r1 := normalizeConfig r
    if r.Type_ = ConfigTypePrefix ++ "SUBSCRIPTION" then some r1
    else
      match config with
      | none => none
      | some c => some (relate c r1)

/-- The second loop of `Scrape`: the resolver pass over all results. -/
def resolvePass (config : Option Azure) : List ScrapeResult → Option (List ScrapeResult)
  | [] => some []
  | r :: rest =>
    match resolveOne config r with
    | none => none
    | some r1 =>
      match resolvePass config rest with
      | none => none
      | some rs => some (r1 :: rs)

/-- `Scrape`: the blocks of the spec with what the outside answers for each; `none` when the
call panics. -/
def Scrape (U : Unicode) (blocks : List (Azure × BlockWorld)) : Option (List ScrapeResult) :=
  match scrapeBlocks U { results := [], config := none } blocks with
  | none => none
  | some st => resolvePass st.config st.results

/-- All edges carried by a list of results. -/
def edgesOf (results : List ScrapeResult) : List RelationshipResult :=
  results.flatMap (·.RelationshipResults)

/-- The loop body of the resolver pass when `azure.config` is set: what `resolveOne` returns
for a configuration that is at hand. -/
def resolveWith (config : Azure) (r : ScrapeResult) : ScrapeResult :=
  if r.ID = "" then r
  else if r.Type_ = ConfigTypePrefix ++ "SUBSCRIPTION" then normalizeConfig r
  else relate config (normalizeConfig r)

/-- The same answers of the outside, except for the client of one category. -/
def BlockWorld.withClient (w : BlockWorld) (cat : Category) (client : Except String Pager) :
    BlockWorld :=
  { w with client := fun c => if c = cat then client else w.client c }

/-- Three result lists in a row; nothing when one of the three runs panicked. -/
def concat3 (before middle after : Option (List ScrapeResult)) : Option (List ScrapeResult) :=
  match before, middle, after with
  | some a, some x, some b => some (a ++ x ++ b)
  | _, _, _ => none

/-- The path segments `extractResourceGroup` looks at. -/
def pathSegments (resourceID : String) : List String :=
  Split (TrimPrefix (Trim resourceID " ") "/") '/'

/-- Every object key of a payload, at every depth; none for a value that does not serialise. -/
def Payload.keys : Payload → List String
  | .value doc => keysOf doc
  | .unsupported _ => []

/-- The edges the loop body of the resolver pass appends to a result, for a configuration
that is at hand. -/
def newEdges (config : Azure) (r : ScrapeResult) : List RelationshipResult :=
  if r.ID = "" ∨ r.Type_ = ConfigTypePrefix ++ "SUBSCRIPTION" then []
  else if r.Type_ ≠ ConfigTypePrefix ++ "MICROSOFT.RESOURCES/RESOURCEGROUPS" ∧
      extractResourceGroup r.ID ≠ "" then
    [subscriptionEdge config r, resourceGroupEdge config r]
  else [subscriptionEdge config r]

/-- The value `azure.config` has after the first loop of `Scrape` when it starts as `current`:
the hydrated configuration of the last block for which both the hydration and the
construction of the credentials succeed, or `current` when there is no such block. -/
def lastConfigFrom (current : Option Azure) : List (Azure × BlockWorld) → Option Azure
  | [] => current
  | block :: rest =>
    match hydrateConnection block.2 block.1, block.2.credential with
    | .ok config, .ok _ => lastConfigFrom (some config) rest
    | _, _ => lastConfigFrom current rest

/-- The configuration of the last block of the spec whose credentials were constructed. -/
def lastConfig (blocks : List (Azure × BlockWorld)) : Option Azure :=
  lastConfigFrom none blocks

/-! ## Sample inputs -/

/-- A sample of the `api/v1` methods: the model carries the name and the serialised spec and
no id; the generated name is derived from the spec. -/
def sampleV1 : V1 where
  ToModel := fun c => .ok ⟨"", c.Name, c.Spec, "", none⟩
  GenerateName := fun spec => .ok ("file-" ++ spec)

/-- An empty storage. -/
def emptyStore : Store := ⟨[], [], []⟩

/-- The storage after two CRDs with different UIDs and the same spec were persisted. -/
def twoCRDStore : Store :=
  PersistScrapeConfigFromCRD ⟨"u2", "ns", "b", "spec"⟩
    (PersistScrapeConfigFromCRD ⟨"u1", "ns", "a", "spec"⟩ emptyStore)

/-- An Azure block with inline credentials for the given subscription. -/
def sampleAzure (subscriptionID : String) : Azure :=
  { BaseScraper := ⟨"base"⟩, ConnectionName := "", SubscriptionID := subscriptionID,
    ClientID := ⟨"AZURE_CLIENT_ID", ""⟩, ClientSecret := ⟨"AZURE_CLIENT_SECRET", ""⟩,
    TenantID := "tenant" }

/-- The block `sampleAzure` after `hydrateConnection` in `sampleWorld`. -/
def sampleConfig (subscriptionID : String) : Azure :=
  { BaseScraper := ⟨"base"⟩, ConnectionName := "", SubscriptionID := subscriptionID,
    ClientID := ⟨"AZURE_CLIENT_ID", "id"⟩, ClientSecret := ⟨"AZURE_CLIENT_SECRET", "secret"⟩,
    TenantID := "tenant" }

/-- An outside in which every lookup succeeds and every category is empty. -/
def sampleWorld : BlockWorld :=
  { connection := .ok none, clientID := .ok "id", clientSecret := .ok "secret",
    credential := .ok (), client := fun _ => .ok [], advisor := [] }

/-- A payload that carries `etag` keys in several spellings. -/
def etagPayload : Json :=
  .obj
    [("etag", .str "W/1"), ("ETag", .str "W/2"), ("name", .str "vm1"),
     ("properties", .obj [("resourceEtag", .str "W/3"), ("subnetetag", .str "W/4"),
        ("disks", .arr [.obj [("Etag", .num 5), ("lun", .num 0)], .str "d2"])])]

/-- A mapped virtual machine with the payload `etagPayload`. -/
def etagResult : ScrapeResult :=
  { BaseScraper := ⟨"base"⟩, ID := "/subscriptions/s/resourcegroups/rg/vm1", Name := "vm1",
    Config := some (.value etagPayload), ConfigClass := "VirtualMachine",
    Type_ := "Azure::Microsoft.Compute/virtualMachines", RelationshipResults := [],
    Error := none }

/-- A native item with the given id, name and type and an empty payload. -/
def nativeItem (id name type : String) : NativeItem :=
  { ID := some id, Name := some name, Type_ := some type, Body := .value (.obj []) }

/-- The result `fetchVirtualMachines` makes of the virtual machine `vm1` with the given
native id. -/
def vmResult (U : Unicode) (config : Azure) (nativeID : String) : ScrapeResult :=
  { BaseScraper := config.BaseScraper, ID := getARMID U (some nativeID), Name := "vm1",
    Config := some (.value (.obj [])), ConfigClass := "VirtualMachine",
    Type_ := getARMType (some "Microsoft.Compute/virtualMachines"), RelationshipResults := [],
    Error := none }

/-- An outside in which the subscriptions pager returns one page with one subscription and
every other category is empty. -/
def subscriptionWorld : BlockWorld :=
  sampleWorld.withClient .subscriptions
    (.ok [.ok [{ ID := some "/subscriptions/0a1b", Name := some "Production", Type_ := none,
                 Body := .value (.obj [("displayName", .str "Production")]) }]])

/-- An outside with three non-empty categories: one resource group, a virtual machine pager
that fails on its first page, and one load balancer. -/
def threeCategoryWorld : BlockWorld :=
  { sampleWorld with
    client := fun cat =>
      match cat with
      | .resourceGroups =>
        .ok [.ok [nativeItem "/subscriptions/S/resourceGroups/RG" "RG"
          "Microsoft.Resources/resourceGroups"]]
      | .virtualMachines => .ok [.error "throttled"]
      | .loadBalancers =>
        .ok [.ok [nativeItem "/subscriptions/S/resourceGroups/RG/lb1" "lb1"
          "Microsoft.Network/loadBalancers"]]
      | _ => .ok [] }

/-- A native item without a display name: the pointer `Name` (for a subscription,
`DisplayName`) is nil. -/
def namelessItem (id type : String) : NativeItem :=
  { ID := some id, Name := none, Type_ := some type, Body := .value (.obj []) }

/-- An outside in which the subscriptions pager returns one page with one subscription that
has no display name, and every other category is empty. -/
def namelessSubscriptionWorld : BlockWorld :=
  sampleWorld.withClient .subscriptions
    (.ok [.ok [namelessItem "/subscriptions/0a1b" "Microsoft.Resources/subscriptions"]])

/-- An outside in which the virtual machines pager returns one page with one machine that has
no name, and every other category is empty. -/
def namelessMachineWorld : BlockWorld :=
  sampleWorld.withClient .virtualMachines
    (.ok [.ok [namelessItem "/subscriptions/0a1b/resourceGroups/RG1/vm1"
      "Microsoft.Compute/virtualMachines"]])

/-- An outside in which the resource groups pager returns one page with the resource group
`RG1`, and every other category is empty. -/
def resourceGroupWorld : BlockWorld :=
  sampleWorld.withClient .resourceGroups
    (.ok [.ok [nativeItem "/subscriptions/0a1b/resourceGroups/RG1" "RG1"
      "Microsoft.Resources/resourceGroups"]])

/-- An outside in which the virtual machines pager and the databases pager both return the
same resource, and the advisor analysis returns one result. -/
def overlappingWorld : BlockWorld :=
  { sampleWorld with
    client := fun cat =>
      match cat with
      | .virtualMachines =>
        .ok [.ok [nativeItem "/subscriptions/S/resourceGroups/RG/x1" "x1" "Microsoft.Sql/servers"]]
      | .databases =>
        .ok [.ok [nativeItem "/subscriptions/S/resourceGroups/RG/x1" "x1" "Microsoft.Sql/servers"],
             .ok [nativeItem "/subscriptions/S/resourceGroups/RG/db2" "db2" "Microsoft.Sql/servers"]]
      | _ => .ok []
    advisor := [errorResult "advisor unavailable"] }

/-- An outside in which the virtual machines pager returns one machine and every other
category is empty. -/
def machineWorld : BlockWorld :=
  sampleWorld.withClient .virtualMachines
    (.ok [.ok [nativeItem "/subscriptions/aaaa/resourceGroups/RG/vm1" "vm1"
      "Microsoft.Compute/virtualMachines"]])

/-- An outside in which the client id cannot be looked up. -/
def unresolvedWorld : BlockWorld :=
  { sampleWorld with clientID := .error "secret not found" }

/-- A mapped virtual machine whose payload `json.Marshal` rejects. -/
def unsupportedResult : ScrapeResult :=
  { BaseScraper := ⟨"base"⟩, ID := "/subscriptions/s/resourcegroups/rg/vm2", Name := "vm2",
    Config := some (.unsupported "json: unsupported value: NaN"),
    ConfigClass := "VirtualMachine", Type_ := "Azure::Microsoft.Compute/virtualMachines",
    RelationshipResults := [], Error := none }

/-! ## Theorems: the reconciliation store -/

theorem selectQuery_updateScraperDeletedAt (now : Nat) (id : String) (db : Store) :
    selectQuery (updateScraperDeletedAt now id db) = selectQuery db := rfl

theorem selectQuery_detachLinked (id : String) (db : Store) :
    selectQuery (detachLinked id db) = selectQuery db := rfl

theorem Tri.and_holds (a b : Tri) : (a.and b).holds = true ↔ a = .yes ∧ b = .yes := by
  cases a <;> cases b <;> simp [Tri.and, Tri.holds]

theorem sqlEq_yes (column : Option String) (param : String) :
    sqlEq column param = .yes ↔ column = some param := by
  cases column with
  | none => simp [sqlEq]
  | some v => by_cases h : v = param <;> simp [sqlEq, h]

theorem sqlEq_holds (column : Option String) (param : String) :
    (sqlEq column param).holds = true ↔ column = some param := by
  rw [← sqlEq_yes]
  cases sqlEq column param <;> simp [Tri.holds]

theorem sqlIn_yes (x : String) (subquery : List (Option String)) :
    sqlIn x subquery = .yes ↔ some x ∈ subquery := by
  unfold sqlIn
  by_cases h : some x ∈ subquery
  · simp [h]
  · by_cases h2 : none ∈ subquery <;> simp [h, h2]

theorem sqlNotIn_yes (x : String) (subquery : List (Option String)) :
    sqlNotIn x subquery = .yes ↔ some x ∉ subquery ∧ none ∉ subquery := by
  unfold sqlNotIn sqlIn
  by_cases h : some x ∈ subquery
  · simp [h, Tri.not]
  · by_cases h2 : none ∈ subquery <;> simp [h, h2, Tri.not]

theorem detachRow_eq (q : List (Option String)) (id : String) (c : ConfigItem) :
    detachRow q id c =
      if some c.id ∈ q ∧ c.scraper_id = some id then { c with scraper_id := none } else c := by
  unfold detachRow
  by_cases h : some c.id ∈ q ∧ c.scraper_id = some id
  · rw [if_pos h, if_pos]
    rw [Tri.and_holds, sqlIn_yes, sqlEq_yes]; exact h
  · rw [if_neg h, if_neg]
    rw [Tri.and_holds, sqlIn_yes, sqlEq_yes]; exact h

theorem softDeleteRow_eq (q : List (Option String)) (now : Nat) (id : String) (c : ConfigItem) :
    softDeleteRow q now id c =
      if (some c.id ∉ q ∧ none ∉ q) ∧ c.scraper_id = some id then
        { c with deleted_at := some now } else c := by
  unfold softDeleteRow
  by_cases h : (some c.id ∉ q ∧ none ∉ q) ∧ c.scraper_id = some id
  · rw [if_pos h, if_pos]
    rw [Tri.and_holds, sqlNotIn_yes, sqlEq_yes]; exact h
  · rw [if_neg h, if_neg]
    rw [Tri.and_holds, sqlNotIn_yes, sqlEq_yes]; exact h

/-- The two item statements in sequence, on one row. -/
theorem softDeleteRow_detachRow (q : List (Option String)) (now : Nat) (id : String)
    (c : ConfigItem) :
    softDeleteRow q now id (detachRow q id c) =
      if c.scraper_id = some id then
        if some c.id ∈ q then { c with scraper_id := none }
        else if none ∈ q then c
        else { c with deleted_at := some now }
      else c := by
  rcases c with ⟨cid, sid, del⟩
  rw [detachRow_eq]
  by_cases hs : sid = some id
  · subst hs
    by_cases hin : some cid ∈ q
    · simp [hin, softDeleteRow_eq]
    · by_cases hn : none ∈ q <;> simp [hin, hn, softDeleteRow_eq]
  · simp [hs, softDeleteRow_eq]

/-- The config items after a successful `DeleteScrapeConfig`, row by row. -/
theorem DeleteScrapeConfig_items (goNow dbNow : Nat) (id : String) (db : Store) :
    (DeleteScrapeConfig DeleteFaults.none goNow dbNow id db).1.config_items =
      db.config_items.map fun c =>
        if c.scraper_id = some id then
          if some c.id ∈ selectQuery db then { c with scraper_id := none }
          else if none ∈ selectQuery db then c
          else { c with deleted_at := some dbNow }
        else c := by
  simp only [DeleteScrapeConfig, DeleteFaults.none, softDeleteRemaining, detachLinked,
    List.map_map, selectQuery_detachLinked, selectQuery_updateScraperDeletedAt]
  have hitems : (updateScraperDeletedAt goNow id db).config_items = db.config_items := rfl
  have hq : selectQuery
      { config_scrapers := (updateScraperDeletedAt goNow id db).config_scrapers
        config_items := List.map (detachRow (selectQuery db) id) db.config_items
        evidences := (updateScraperDeletedAt goNow id db).evidences } = selectQuery db := rfl
  rw [hitems, hq]
  apply List.map_congr_left
  intro c _
  exact softDeleteRow_detachRow _ _ _ c

/-- Without a NULL `config_id` in `evidences`, a successful `DeleteScrapeConfig` detaches the
referenced items of the scraper and soft-deletes its other items, one outcome per item. -/
theorem DeleteScrapeConfig_items_of_no_null (goNow dbNow : Nat) (id : String) (db : Store)
    (h : none ∉ selectQuery db) :
    (DeleteScrapeConfig DeleteFaults.none goNow dbNow id db).1.config_items =
      db.config_items.map fun c =>
        if c.scraper_id = some id then
          if some c.id ∈ selectQuery db then { c with scraper_id := none }
          else { c with deleted_at := some dbNow }
        else c := by
  rw [DeleteScrapeConfig_items]
  apply List.map_congr_left
  intro c _
  simp [h]

/-- C1: with a NULL `config_id` in `evidences`, `DeleteScrapeConfig("s1")` returns without
error and leaves the unreferenced item `c1` of scraper `s1` as it was: still owned by `s1`
and not deleted. -/
theorem DeleteScrapeConfig_null_config_id :
    DeleteScrapeConfig DeleteFaults.none 10 11 "s1"
        { config_scrapers := [⟨"s1", "azure", "spec", "ConfigFile", none⟩]
          config_items := [⟨"c1", some "s1", none⟩, ⟨"c2", some "s1", none⟩]
          evidences := [⟨"e1", none⟩, ⟨"e2", some "c2"⟩] } =
      ({ config_scrapers := [⟨"s1", "azure", "spec", "ConfigFile", some 10⟩]
         config_items := [⟨"c1", some "s1", none⟩, ⟨"c2", none, none⟩]
         evidences := [⟨"e1", none⟩, ⟨"e2", some "c2"⟩] }, none) := by
  decide

/-- C2: a failing detach statement leaves the scraper row soft-deleted: the call returns the
error and the storage differs from the storage before the call. -/
theorem DeleteScrapeConfig_not_all_or_nothing :
    DeleteScrapeConfig ⟨none, some "connection reset", none⟩ 10 11 "s1"
        { config_scrapers := [⟨"s1", "azure", "spec", "ConfigFile", none⟩]
          config_items := [⟨"c1", some "s1", none⟩]
          evidences := [] } =
      ({ config_scrapers := [⟨"s1", "azure", "spec", "ConfigFile", some 10⟩]
         config_items := [⟨"c1", some "s1", none⟩]
         evidences := [] }, some "connection reset") ∧
    ({ config_scrapers := [⟨"s1", "azure", "spec", "ConfigFile", some 10⟩]
       config_items := [⟨"c1", some "s1", none⟩]
       evidences := [] } : Store) ≠
      { config_scrapers := [⟨"s1", "azure", "spec", "ConfigFile", none⟩]
        config_items := [⟨"c1", some "s1", none⟩]
        evidences := [] } := by
  decide

/-- C2, amended: a failed `DeleteScrapeConfig` keeps the statements that ran before the
failing one. A failing scraper soft-delete leaves the storage unchanged; a failing detach
leaves the scraper row soft-deleted and nothing else changed; a failing item soft-delete
leaves the scraper row soft-deleted and the referenced items detached, and no item deleted.
The call returns no error exactly when no statement fails. -/
theorem DeleteScrapeConfig_failure_keeps_earlier_statements (goNow dbNow : Nat) (id : String)
    (db : Store) (err : String) (f2 f3 : Option String) :
    DeleteScrapeConfig ⟨some err, f2, f3⟩ goNow dbNow id db = (db, some err) ∧
    DeleteScrapeConfig ⟨none, some err, f3⟩ goNow dbNow id db =
      ({ config_scrapers := db.config_scrapers.map fun s =>
           if s.ID = id then { s with DeletedAt := some goNow } else s
         config_items := db.config_items
         evidences := db.evidences }, some err) ∧
    DeleteScrapeConfig ⟨none, none, some err⟩ goNow dbNow id db =
      ({ config_scrapers := db.config_scrapers.map fun s =>
           if s.ID = id then { s with DeletedAt := some goNow } else s
         config_items := db.config_items.map fun c =>
           if some c.id ∈ selectQuery db ∧ c.scraper_id = some id then
             { c with scraper_id := none } else c
         evidences := db.evidences }, some err) ∧
    (∀ faults : DeleteFaults,
      (DeleteScrapeConfig faults goNow dbNow id db).2 = none ↔ faults = DeleteFaults.none) := by
  have hs : (updateScraperDeletedAt goNow id db).config_scrapers =
      db.config_scrapers.map fun s =>
        if s.ID = id then { s with DeletedAt := some goNow } else s := by
    simp only [updateScraperDeletedAt]
    apply List.map_congr_left
    intro s _
    by_cases h : s.ID = id <;> simp [sqlEq, Tri.holds, h]
  refine ⟨rfl, ?_, ?_, ?_⟩
  · simp only [DeleteScrapeConfig, Prod.mk.injEq, and_true]
    rw [← hs]
    rfl
  · simp only [DeleteScrapeConfig, Prod.mk.injEq, and_true, detachLinked]
    rw [← hs]
    have hd : List.map (detachRow (selectQuery (updateScraperDeletedAt goNow id db)) id)
        (updateScraperDeletedAt goNow id db).config_items =
        db.config_items.map fun c =>
          if some c.id ∈ selectQuery db ∧ c.scraper_id = some id then
            { c with scraper_id := none } else c := by
      show List.map (detachRow (selectQuery db) id) db.config_items = _
      apply List.map_congr_left
      intro c _
      exact detachRow_eq _ _ c
    rw [hd]
    rfl
  · rintro ⟨f1, f2, f3⟩
    cases f1 <;> cases f2 <;> cases f3 <;> simp [DeleteScrapeConfig, DeleteFaults.none]

theorem findBySpec_some {spec : String} {db : Store} {found : ConfigScraper}
    (h : findBySpec spec db = some found) :
    found ∈ db.config_scrapers ∧ found.Spec = spec := by
  unfold findBySpec at h
  refine ⟨List.mem_of_find?_eq_some h, ?_⟩
  have := List.find?_some h
  rw [sqlEq_holds] at this
  exact Option.some.inj this

theorem findBySpec_none {spec : String} {db : Store} (h : findBySpec spec db = none) :
    specCount spec db = 0 := by
  unfold findBySpec at h
  unfold specCount
  rw [List.length_eq_zero, List.filter_eq_nil_iff]
  intro s hs
  have := List.find?_eq_none.mp h s hs
  rw [sqlEq_holds] at this
  simpa using this

theorem specCount_pos {spec : String} {db : Store} {found : ConfigScraper}
    (hmem : found ∈ db.config_scrapers) (hspec : found.Spec = spec) :
    0 < specCount spec db := by
  unfold specCount
  rw [List.length_pos_iff_exists_mem]
  exact ⟨found, List.mem_filter.mpr ⟨hmem, by simpa using hspec⟩⟩

theorem create_ok {w : PersistWorld} {m row : ConfigScraper} {db db1 : Store}
    (h : create w m db = (db1, row, none)) :
    db1 = { db with config_scrapers := db.config_scrapers ++ [row] } ∧ row.Spec = m.Spec ∧
      row.Name = m.Name := by
  unfold create at h
  cases hf : w.createFault with
  | some e => simp [hf] at h
  | none =>
    simp only [hf] at h
    generalize hrow : (if m.ID = "" then { m with ID := w.newID } else m) = row0 at h
    by_cases hd : (db.config_scrapers.any fun s => s.ID == row0.ID) = true
    · rw [if_pos hd] at h
      simp at h
    · rw [if_neg hd] at h
      simp only [Prod.mk.injEq, and_true] at h
      obtain ⟨h1, h2⟩ := h
      subst h2 h1
      refine ⟨rfl, ?_, ?_⟩ <;> (rw [← hrow]; split <;> rfl)

/-- C3, amended: on a store that holds at most one row with the serialised spec of `c`, two
successive successful calls of `PersistScrapeConfigFromFile(c)` leave exactly one such row;
on every store the second call leaves the storage as the first call left it and returns the
row the first call returned, which is stored and carries that spec. -/
theorem PersistScrapeConfigFromFile_idempotent (api : V1) (w1 w2 : PersistWorld)
    (c : ScrapeConfig) (m : ConfigScraper) (db db1 db2 : Store) (r1 r2 : ConfigScraper)
    (hm : api.ToModel c = .ok m)
    (h1 : PersistScrapeConfigFromFile api w1 c db = (db1, r1, none))
    (h2 : PersistScrapeConfigFromFile api w2 c db1 = (db2, r2, none)) :
    db2 = db1 ∧ r2 = r1 ∧ r1 ∈ db1.config_scrapers ∧ r1.Spec = m.Spec ∧
      (specCount m.Spec db ≤ 1 → specCount m.Spec db1 = 1) := by
  unfold PersistScrapeConfigFromFile at h1 h2
  simp only [hm] at h1 h2
  cases hf1 : w1.findFault with
  | some e => simp [hf1] at h1
  | none =>
  cases hf2 : w2.findFault with
  | some e => simp [hf2] at h2
  | none =>
  simp only [hf1] at h1
  simp only [hf2] at h2
  cases hfind : findBySpec m.Spec db with
  | some found =>
    simp only [hfind, Prod.mk.injEq, and_true] at h1
    obtain ⟨hdb, hr⟩ := h1
    subst hdb hr
    simp only [hfind, Prod.mk.injEq, and_true] at h2
    obtain ⟨hmem, hspec⟩ := findBySpec_some hfind
    refine ⟨h2.1.symm, h2.2.symm, hmem, hspec, fun hle => ?_⟩
    have := specCount_pos hmem hspec
    omega
  | none =>
    simp only [hfind] at h1
    cases hg : api.GenerateName c.Spec with
    | error e => simp [hg] at h1
    | ok name =>
      simp only [hg] at h1
      obtain ⟨hdb1, hspec, _⟩ := create_ok h1
      have hspec1 : r1.Spec = m.Spec := hspec
      have hfind1 : findBySpec m.Spec db1 = some r1 := by
        subst hdb1
        unfold findBySpec at hfind ⊢
        simp only [List.find?_append, hfind, Option.none_or, List.find?_cons, List.find?_nil]
        simp [sqlEq, Tri.holds, hspec1]
      simp only [hfind1, Prod.mk.injEq, and_true] at h2
      refine ⟨h2.1.symm, h2.2.symm, ?_, hspec1, fun _ => ?_⟩
      · subst hdb1
        simp
      · have h0 := findBySpec_none hfind
        subst hdb1
        unfold specCount at h0 ⊢
        simp only [List.filter_append, List.length_append, h0]
        simp [List.filter, hspec1]

/-- C3: on the storage two CRDs with the same spec leave behind, two successive calls of
`PersistScrapeConfigFromFile` with that spec both succeed and return the first CRD row, and
the storage holds two rows with the spec, not one. -/
theorem PersistScrapeConfigFromFile_two_rows :
    PersistScrapeConfigFromFile sampleV1 ⟨none, none, "n1"⟩ ⟨"", "", "file", "spec"⟩ twoCRDStore =
      (twoCRDStore, ⟨"u1", "ns/a", "spec", "KubernetesCRD", none⟩, none) ∧
    PersistScrapeConfigFromFile sampleV1 ⟨none, none, "n2"⟩ ⟨"", "", "file", "spec"⟩
      (PersistScrapeConfigFromFile sampleV1 ⟨none, none, "n1"⟩ ⟨"", "", "file", "spec"⟩
        twoCRDStore).1 =
      (twoCRDStore, ⟨"u1", "ns/a", "spec", "KubernetesCRD", none⟩, none) ∧
    specCount "spec" twoCRDStore = 2 := by
  decide

/-- C3, witness: two calls on the empty storage; the first inserts the row `n1`, the second
returns it. -/
theorem PersistScrapeConfigFromFile_idempotent_witness :
    PersistScrapeConfigFromFile sampleV1 ⟨none, none, "n1"⟩ ⟨"", "", "file", "spec"⟩ emptyStore =
      (⟨[⟨"n1", "file-spec", "spec", "ConfigFile", none⟩], [], []⟩,
        ⟨"n1", "file-spec", "spec", "ConfigFile", none⟩, none) ∧
    (⟨[⟨"n1", "file-spec", "spec", "ConfigFile", none⟩], [], []⟩ : Store) =
        ⟨[⟨"n1", "file-spec", "spec", "ConfigFile", none⟩], [], []⟩ ∧
      (⟨"n1", "file-spec", "spec", "ConfigFile", none⟩ : ConfigScraper) =
        ⟨"n1", "file-spec", "spec", "ConfigFile", none⟩ ∧
      (⟨"n1", "file-spec", "spec", "ConfigFile", none⟩ : ConfigScraper) ∈
        [(⟨"n1", "file-spec", "spec", "ConfigFile", none⟩ : ConfigScraper)] ∧
      "spec" = "spec" ∧
      (specCount "spec" emptyStore ≤ 1 →
        specCount "spec" ⟨[⟨"n1", "file-spec", "spec", "ConfigFile", none⟩], [], []⟩ = 1) :=
  ⟨by decide,
   PersistScrapeConfigFromFile_idempotent sampleV1 ⟨none, none, "n1"⟩ ⟨none, none, "n2"⟩
     ⟨"", "", "file", "spec"⟩ ⟨"", "file", "spec", "", none⟩ emptyStore
     ⟨[⟨"n1", "file-spec", "spec", "ConfigFile", none⟩], [], []⟩
     ⟨[⟨"n1", "file-spec", "spec", "ConfigFile", none⟩], [], []⟩
     ⟨"n1", "file-spec", "spec", "ConfigFile", none⟩
     ⟨"n1", "file-spec", "spec", "ConfigFile", none⟩ rfl (by decide) (by decide)⟩

/-! ## Theorems: the category fetches -/

theorem mapPage_append (U : Unicode) (config : Azure) (cat : Category)
    (xs ys : List NativeItem) :
    mapPage U config cat (xs ++ ys) =
      match mapPage U config cat xs with
      | none => none
      | some a => (mapPage U config cat ys).map (a ++ ·) := by
  induction xs with
  | nil => cases h : mapPage U config cat ys <;> simp [mapPage, h]
  | cons x xs ih =>
    show mapPage U config cat (x :: (xs ++ ys)) = _
    simp only [mapPage, ih]
    cases mapItem U config cat x <;> cases mapPage U config cat xs <;>
      cases mapPage U config cat ys <;> rfl

theorem readPages_failure (U : Unicode) (config : Azure) (cat : Category)
    (pages : List (List NativeItem)) (err : String) (rest : Pager) (acc : List ScrapeResult) :
    readPages U config cat (pages.map Except.ok ++ Except.error err :: rest) acc =
      (mapPage U config cat pages.flatten).map
        fun mapped => acc ++ mapped ++ [errorResult (cat.pageMessage ++ err)] := by
  induction pages generalizing acc with
  | nil => simp [readPages, mapPage]
  | cons p ps ih =>
    show readPages U config cat (.ok p :: (ps.map Except.ok ++ Except.error err :: rest)) acc = _
    simp only [readPages, List.flatten_cons, mapPage_append, ih]
    cases mapPage U config cat p <;> cases mapPage U config cat ps.flatten <;> simp

theorem mapPage_of_deref (U : Unicode) (config : Azure) (cat : Category)
    (hcat : cat ≠ .subscriptions) (items : List NativeItem) :
    mapPage U config cat items =
      some (items.map fun v =>
        { BaseScraper := config.BaseScraper, ID := getARMID U v.ID, Name := deref v.Name,
          Config := some v.Body, ConfigClass := cat.configClass, Type_ := getARMType v.Type_,
          RelationshipResults := [], Error := none }) := by
  induction items with
  | nil => rfl
  | cons v vs ih =>
    have hv : mapItem U config cat v =
        some { BaseScraper := config.BaseScraper, ID := getARMID U v.ID, Name := deref v.Name,
               Config := some v.Body, ConfigClass := cat.configClass,
               Type_ := getARMType v.Type_, RelationshipResults := [], Error := none } := by
      cases cat <;> first | rfl | exact absurd rfl hcat
    simp [mapPage, hv, ih]

theorem fetchEach_append (U : Unicode) (config : Azure) (w : BlockWorld)
    (l1 l2 : List Category) :
    fetchEach U config w (l1 ++ l2) =
      match fetchEach U config w l1, fetchEach U config w l2 with
      | some a, some b => some (a ++ b)
      | _, _ => none := by
  induction l1 with
  | nil => cases h : fetchEach U config w l2 <;> simp [fetchEach, h]
  | cons c cs ih =>
    show fetchEach U config w (c :: (cs ++ l2)) = _
    simp only [fetchEach, ih]
    cases fetch U config c (w.client c) <;> cases fetchEach U config w cs <;>
      cases fetchEach U config w l2 <;> simp

theorem fetchEach_congr (U : Unicode) (config : Azure) (w1 w2 : BlockWorld)
    (l : List Category) (h : ∀ c ∈ l, w1.client c = w2.client c) :
    fetchEach U config w1 l = fetchEach U config w2 l := by
  induction l with
  | nil => rfl
  | cons c cs ih =>
    simp only [fetchEach]
    rw [h c (List.mem_cons_self _ _), ih fun d hd => h d (List.mem_cons_of_mem _ hd)]

theorem Category.mem_declared (cat : Category) : cat ∈ Category.declared := by
  cases cat <;> decide

theorem Category.declared_nodup : Category.declared.Nodup := by
  decide

theorem Category.split_declared (cat : Category) :
    ∃ l1 l2, Category.declared = l1 ++ cat :: l2 ∧ cat ∉ l1 ∧ cat ∉ l2 := by
  obtain ⟨l1, l2, h⟩ := List.append_of_mem (Category.mem_declared cat)
  have hn := Category.declared_nodup
  rw [h, List.nodup_middle, List.nodup_cons] at hn
  refine ⟨l1, l2, h, fun h1 => hn.1 (List.mem_append_left _ h1),
    fun h2 => hn.1 (List.mem_append_right _ h2)⟩

theorem withClient_client_of_ne (w : BlockWorld) (cat c : Category)
    (client : Except String Pager) (h : c ≠ cat) :
    (w.withClient cat client).client c = w.client c := by
  simp [BlockWorld.withClient, h]

theorem withClient_client_self (w : BlockWorld) (cat : Category) (client : Except String Pager) :
    (w.withClient cat client).client cat = client := by
  simp [BlockWorld.withClient]

/-- What one block gathers depends on the client of a category only through the fetch of that
category, whose results stand between those of the fetches before and after it. -/
theorem fetchAll_isolation (U : Unicode) (config : Azure) (w : BlockWorld) (cat : Category) :
    ∃ before after : Option (List ScrapeResult), ∀ client,
      fetchAll U config (w.withClient cat client) =
        concat3 before (fetch U config cat client) after := by
  obtain ⟨l1, l2, hsplit, h1, h2⟩ := Category.split_declared cat
  refine ⟨fetchEach U config w l1, (fetchEach U config w l2).map (· ++ w.advisor), ?_⟩
  intro client
  have e1 : fetchEach U config (w.withClient cat client) l1 = fetchEach U config w l1 :=
    fetchEach_congr U config _ _ l1 fun c hc =>
      withClient_client_of_ne w cat c client fun h => h1 (h ▸ hc)
  have e2 : fetchEach U config (w.withClient cat client) l2 = fetchEach U config w l2 :=
    fetchEach_congr U config _ _ l2 fun c hc =>
      withClient_client_of_ne w cat c client fun h => h2 (h ▸ hc)
  have hadv : (w.withClient cat client).advisor = w.advisor := rfl
  unfold fetchAll
  rw [hsplit, fetchEach_append, e1, hadv]
  simp only [fetchEach, withClient_client_self, e2]
  cases fetchEach U config w l1 <;> cases fetch U config cat client <;>
    cases fetchEach U config w l2 <;> simp [concat3]

/-! ## Theorems: the loops of `Scrape` -/

theorem resolveOne_some (config : Azure) (r : ScrapeResult) :
    resolveOne (some config) r = some (resolveWith config r) := by
  unfold resolveOne resolveWith
  by_cases h1 : r.ID = ""
  · simp [h1]
  · by_cases h2 : r.Type_ = ConfigTypePrefix ++ "SUBSCRIPTION" <;> simp [h1, h2]

theorem resolvePass_some (config : Azure) (results : List ScrapeResult) :
    resolvePass (some config) results = some (results.map (resolveWith config)) := by
  induction results with
  | nil => rfl
  | cons r rs ih => simp [resolvePass, resolveOne_some, ih]

theorem resolveWith_errorResult (config : Azure) (err : String) :
    resolveWith config (errorResult err) = errorResult err := by
  simp [resolveWith, errorResult]

theorem scrapeBlocks_append (U : Unicode) (st : ScrapeState) (l1 l2 : List (Azure × BlockWorld)) :
    scrapeBlocks U st (l1 ++ l2) =
      match scrapeBlocks U st l1 with
      | none => none
      | some st1 => scrapeBlocks U st1 l2 := by
  induction l1 generalizing st with
  | nil => rfl
  | cons b bs ih =>
    show scrapeBlocks U st (b :: (bs ++ l2)) = _
    simp only [scrapeBlocks]
    cases scrapeBlock U st b with
    | none => rfl
    | some st1 => exact ih st1

theorem scrapeBlock_shift (U : Unicode) (st : ScrapeState) (b : Azure × BlockWorld) :
    scrapeBlock U st b =
      (scrapeBlock U ⟨[], st.config⟩ b).map fun s => ⟨st.results ++ s.results, s.config⟩ := by
  obtain ⟨t, w⟩ := b
  unfold scrapeBlock
  cases hh : hydrateConnection w t with
  | error e => simp [Errorf]
  | ok config =>
    cases hc : w.credential with
    | error e => simp [Errorf]
    | ok u =>
      simp only
      cases hf : fetchAll U config w <;> simp

/-- The first loop only appends to the results it starts from. -/
theorem scrapeBlocks_shift (U : Unicode) (st : ScrapeState) (blocks : List (Azure × BlockWorld)) :
    scrapeBlocks U st blocks =
      (scrapeBlocks U ⟨[], st.config⟩ blocks).map
        fun s => ⟨st.results ++ s.results, s.config⟩ := by
  induction blocks generalizing st with
  | nil => simp [scrapeBlocks]
  | cons b bs ih =>
    simp only [scrapeBlocks]
    rw [scrapeBlock_shift U st b]
    cases hb : scrapeBlock U ⟨[], st.config⟩ b with
    | none => rfl
    | some s1 =>
      simp only [Option.map_some']
      rw [ih ⟨st.results ++ s1.results, s1.config⟩, ih s1]
      cases scrapeBlocks U ⟨[], s1.config⟩ bs <;> simp

theorem scrapeBlock_config (U : Unicode) (st st1 : ScrapeState) (b : Azure × BlockWorld)
    (h : scrapeBlock U st b = some st1) (hc : st.config.isSome) : st1.config.isSome := by
  unfold scrapeBlock at h
  cases hh : hydrateConnection b.2 b.1 with
  | error e =>
    simp only [hh, Option.some.injEq] at h
    subst h
    exact hc
  | ok config =>
    simp only [hh] at h
    cases hcr : b.2.credential with
    | error e =>
      simp only [hcr, Option.some.injEq] at h
      subst h
      exact hc
    | ok u =>
      simp only [hcr] at h
      cases hf : fetchAll U config b.2 with
      | none => simp [hf] at h
      | some rs =>
        simp only [hf, Option.some.injEq] at h
        subst h
        rfl

/-- Once `azure.config` is set it stays set. -/
theorem scrapeBlocks_config (U : Unicode) (st st1 : ScrapeState)
    (blocks : List (Azure × BlockWorld))
    (h : scrapeBlocks U st blocks = some st1) (hc : st.config.isSome) : st1.config.isSome := by
  induction blocks generalizing st with
  | nil =>
    simp only [scrapeBlocks, Option.some.injEq] at h
    subst h
    exact hc
  | cons b bs ih =>
    simp only [scrapeBlocks] at h
    cases hb : scrapeBlock U st b with
    | none => simp [hb] at h
    | some s1 =>
      simp only [hb] at h
      exact ih s1 h (scrapeBlock_config U st s1 b hb hc)

theorem scrapeBlock_ok (U : Unicode) (st : ScrapeState) (t config : Azure) (w : BlockWorld)
    (hh : hydrateConnection w t = .ok config) (hc : w.credential = .ok ()) :
    scrapeBlock U st (t, w) =
      (fetchAll U config w).map fun rs => ⟨st.results ++ rs, some config⟩ := by
  unfold scrapeBlock
  simp only [hh, hc]
  cases fetchAll U config w <;> rfl

/-- A call of `Scrape` seen from one block that gets its credentials: the results of the
blocks before it, its own, and those of the blocks after it, resolved together. -/
theorem Scrape_block (U : Unicode) (before_ after_ : List (Azure × BlockWorld))
    (t config : Azure) (w : BlockWorld)
    (hh : hydrateConnection w t = .ok config) (hc : w.credential = .ok ()) :
    Scrape U (before_ ++ (t, w) :: after_) =
      match scrapeBlocks U ⟨[], none⟩ before_, fetchAll U config w,
          scrapeBlocks U ⟨[], some config⟩ after_ with
      | some st1, some rs, some st2 => resolvePass st2.config (st1.results ++ rs ++ st2.results)
      | _, _, _ => none := by
  unfold Scrape
  rw [scrapeBlocks_append]
  cases hpre : scrapeBlocks U ⟨[], none⟩ before_ with
  | none => rfl
  | some st1 =>
    simp only [scrapeBlocks]
    rw [scrapeBlock_ok U st1 t config w hh hc]
    cases hf : fetchAll U config w with
    | none => rfl
    | some rs =>
      simp only [Option.map_some']
      rw [scrapeBlocks_shift]
      cases hpost : scrapeBlocks U ⟨[], some config⟩ after_ with
      | none => rfl
      | some st2 => rfl

/-- The isolation of one category inside a whole call of `Scrape`. -/
theorem Scrape_isolation (U : Unicode) (before_ after_ : List (Azure × BlockWorld))
    (t config : Azure) (w : BlockWorld) (cat : Category)
    (hh : hydrateConnection w t = .ok config) (hc : w.credential = .ok ()) :
    ∃ (final : Azure) (before after : Option (List ScrapeResult)), ∀ client,
      Scrape U (before_ ++ (t, w.withClient cat client) :: after_) =
        concat3 before ((fetch U config cat client).map (List.map (resolveWith final))) after := by
  obtain ⟨fb, fa, hfetch⟩ := fetchAll_isolation U config w cat
  have hscrape : ∀ client, Scrape U (before_ ++ (t, w.withClient cat client) :: after_) =
      match scrapeBlocks U ⟨[], none⟩ before_, concat3 fb (fetch U config cat client) fa,
          scrapeBlocks U ⟨[], some config⟩ after_ with
      | some st1, some rs, some st2 => resolvePass st2.config (st1.results ++ rs ++ st2.results)
      | _, _, _ => none := by
    intro client
    rw [Scrape_block U before_ after_ t config (w.withClient cat client) hh hc, hfetch]
  cases hpre : scrapeBlocks U ⟨[], none⟩ before_ with
  | none =>
    refine ⟨config, none, none, fun client => ?_⟩
    rw [hscrape, hpre]
    rfl
  | some st1 =>
    cases hpost : scrapeBlocks U ⟨[], some config⟩ after_ with
    | none =>
      refine ⟨config, none, none, fun client => ?_⟩
      rw [hscrape, hpre, hpost]
      cases concat3 fb (fetch U config cat client) fa <;> rfl
    | some st2 =>
      have hsome := scrapeBlocks_config U _ st2 after_ hpost rfl
      obtain ⟨final, hfinal⟩ := Option.isSome_iff_exists.mp hsome
      refine ⟨final, fb.map fun a => (st1.results ++ a).map (resolveWith final),
        fa.map fun b => (b ++ st2.results).map (resolveWith final), fun client => ?_⟩
      rw [hscrape, hpre, hpost]
      cases fb <;> cases fetch U config cat client <;> cases fa <;>
        simp only [concat3, Option.map_some', Option.map_none', hfinal, resolvePass_some,
          List.map_append, List.append_assoc]

theorem mapPage_eq_none (U : Unicode) (config : Azure) (cat : Category)
    (items : List NativeItem) :
    mapPage U config cat items = none ↔ cat = .subscriptions ∧ ∃ v ∈ items, v.Name = none := by
  induction items with
  | nil => simp [mapPage]
  | cons v vs ih =>
    by_cases hcat : cat = .subscriptions
    · subst hcat
      cases hn : v.Name with
      | none => simp [mapPage, mapItem, hn]
      | some d =>
        simp only [mapPage, mapItem, hn]
        cases hvs : mapPage U config .subscriptions vs with
        | none =>
          have := ih.mp hvs
          simpa [hn] using this.2
        | some rs =>
          have : ¬ (Category.subscriptions = Category.subscriptions ∧ ∃ v ∈ vs, v.Name = none) :=
            fun h => by simpa [hvs] using ih.mpr h
          simpa [hn] using this
    · simp [mapPage_of_deref U config cat hcat, hcat]

/-- C4: a category whose pager fails on a page contributes the mapped items of the pages
before it, in order, followed by one error-only result; mapping an item can only fail by the
nil display name of a subscription; and in the output of `Scrape` the results of every other
category and block stand before and after that contribution and do not depend on the pager
of the category. The resolver leaves the error-only result as it is. -/
theorem Scrape_category_failure_isolated (U : Unicode)
    (before_ after_ : List (Azure × BlockWorld)) (t config : Azure) (w : BlockWorld)
    (cat : Category)
    (hh : hydrateConnection w t = .ok config) (hc : w.credential = .ok ()) :
    (∀ (pages : List (List NativeItem)) (err : String) (rest : Pager),
      fetch U config cat (.ok (pages.map Except.ok ++ Except.error err :: rest)) =
        (mapPage U config cat pages.flatten).map
          fun mapped => mapped ++ [errorResult (cat.pageMessage ++ err)]) ∧
    (∀ items : List NativeItem,
      mapPage U config cat items = none ↔ cat = .subscriptions ∧ ∃ v ∈ items, v.Name = none) ∧
    (cat ≠ .subscriptions → ∀ items : List NativeItem,
      mapPage U config cat items =
        some (items.map fun v =>
          { BaseScraper := config.BaseScraper, ID := getARMID U v.ID, Name := deref v.Name,
            Config := some v.Body, ConfigClass := cat.configClass, Type_ := getARMType v.Type_,
            RelationshipResults := [], Error := none })) ∧
    ∃ (final : Azure) (before after : Option (List ScrapeResult)),
      (∀ client,
        Scrape U (before_ ++ (t, w.withClient cat client) :: after_) =
          concat3 before ((fetch U config cat client).map (List.map (resolveWith final)))
            after) ∧
      ∀ err, resolveWith final (errorResult err) = errorResult err := by
  refine ⟨fun pages err rest => ?_, mapPage_eq_none U config cat,
    fun hcat => mapPage_of_deref U config cat hcat, ?_⟩
  · simp only [fetch, readPages_failure, List.nil_append]
  · obtain ⟨final, before, after, h⟩ := Scrape_isolation U before_ after_ t config w cat hh hc
    exact ⟨final, before, after, h, resolveWith_errorResult final⟩

/-- C4, witness: one block whose virtual machine pager fails on its first page. -/
theorem Scrape_category_failure_isolated_witness :
    hydrateConnection sampleWorld (sampleAzure "S") = .ok (sampleConfig "S") ∧
    sampleWorld.credential = .ok () ∧
    ∃ (final : Azure) (before after : Option (List ScrapeResult)),
      (∀ client,
        Scrape ascii ([] ++ (sampleAzure "S", sampleWorld.withClient .virtualMachines client) :: []) =
          concat3 before
            ((fetch ascii (sampleConfig "S") .virtualMachines client).map
              (List.map (resolveWith final))) after) ∧
      ∀ err, resolveWith final (errorResult err) = errorResult err :=
  ⟨rfl, rfl,
    (Scrape_category_failure_isolated ascii [] [] (sampleAzure "S") (sampleConfig "S") sampleWorld
      .virtualMachines rfl rfl).2.2.2⟩

/-! ## Theorems: the payload normaliser -/

theorem hasInfix_iff (pat s : List Char) : hasInfix pat s = true ↔ pat <:+: s := by
  induction s with
  | nil => simp [hasInfix, List.infix_nil]
  | cons c cs ih =>
    simp only [hasInfix, Bool.or_eq_true, ih, List.infix_cons_iff, List.isPrefixOf_iff_prefix]

theorem test_iff (re s : String) : test re s = true ↔ re.data <:+: s.data :=
  hasInfix_iff re.data s.data

theorem walkItems_eq_map (items : List Json) : walkItems items = items.map walk := by
  induction items with
  | nil => rfl
  | cons x xs ih => simp [walkItems, ih]

theorem walkEntries_eq_map (entries : List (String × Json)) :
    walkEntries entries = entries.map fun e => (e.1, walk e.2) := by
  induction entries with
  | nil => rfl
  | cons e es ih =>
    obtain ⟨k, v⟩ := e
    simp [walkEntries, ih]

theorem mem_keysOfItems (k : String) (items : List Json) :
    k ∈ keysOfItems items ↔ ∃ x ∈ items, k ∈ keysOf x := by
  induction items with
  | nil => simp [keysOfItems]
  | cons x xs ih => simp [keysOfItems, ih]

theorem mem_keysOfEntries (k : String) (entries : List (String × Json)) :
    k ∈ keysOfEntries entries ↔ ∃ e ∈ entries, k = e.1 ∨ k ∈ keysOf e.2 := by
  induction entries with
  | nil => simp [keysOfEntries]
  | cons e es ih =>
    obtain ⟨k1, v⟩ := e
    simp only [keysOfEntries, List.mem_cons, List.mem_append, ih]
    constructor
    · rintro (h | h | ⟨e, he, h⟩)
      · exact ⟨(k1, v), Or.inl rfl, Or.inl h⟩
      · exact ⟨(k1, v), Or.inl rfl, Or.inr h⟩
      · exact ⟨e, Or.inr he, h⟩
    · rintro ⟨e, he | he, h⟩
      · subst he
        rcases h with h | h
        · exact Or.inl h
        · exact Or.inr (Or.inl h)
      · exact Or.inr (Or.inr ⟨e, he, h⟩)

theorem sizeOf_value_lt {k : String} {v : Json} {entries : List (String × Json)}
    (h : (k, v) ∈ entries) : sizeOf v < sizeOf entries := by
  have h1 := List.sizeOf_lt_of_mem h
  have h2 : sizeOf (k, v) = 1 + sizeOf k + sizeOf v := rfl
  omega

/-- No key of the filtered document matches the pattern, at any depth. -/
theorem walk_keys (doc : Json) : ∀ k ∈ keysOf (walk doc), test "etag" k = false := by
  match doc with
  | .null => simp [walk, keysOf]
  | .bool b => simp [walk, keysOf]
  | .num n => simp [walk, keysOf]
  | .str s => simp [walk, keysOf]
  | .arr items =>
    intro k hk
    simp only [walk, keysOf, walkItems_eq_map, mem_keysOfItems, List.mem_map] at hk
    obtain ⟨x, ⟨y, hy, rfl⟩, hk⟩ := hk
    have : sizeOf y < sizeOf items := List.sizeOf_lt_of_mem hy
    exact walk_keys y k hk
  | .obj entries =>
    intro k hk
    simp only [walk, keysOf, walkEntries_eq_map, mem_keysOfEntries, List.mem_filter,
      List.mem_map] at hk
    obtain ⟨e, ⟨⟨e0, he0, rfl⟩, hkeep⟩, hk⟩ := hk
    rcases hk with hk | hk
    · subst hk
      simpa using hkeep
    · have : sizeOf e0.2 < sizeOf entries := sizeOf_value_lt (k := e0.1) he0
      exact walk_keys e0.2 k hk
termination_by sizeOf doc
decreasing_by
  all_goals simp_wf
  all_goals omega

theorem filter_walkEntries (volatile : String → Bool)
    (hvol : ∀ k, volatile k = test "etag" k) (entries : List (String × Json))
    (h : ∀ e ∈ entries, walk e.2 = stripKeys volatile e.2) :
    ((walkEntries entries).filter fun e => !test "etag" e.1) = stripEntries volatile entries := by
  induction entries with
  | nil => rfl
  | cons e es ih =>
    obtain ⟨k, v⟩ := e
    have ih1 := ih fun e he => h e (List.mem_cons_of_mem _ he)
    have hv : walk v = stripKeys volatile v := h (k, v) (List.mem_cons_self _ _)
    cases ht : test "etag" k with
    | true => simp [walkEntries, stripEntries, List.filter, ht, hvol, ih1]
    | false => simp [walkEntries, stripEntries, List.filter, ht, hvol, ih1, hv]

theorem walkItems_eq_stripItems (volatile : String → Bool) (items : List Json)
    (h : ∀ x ∈ items, walk x = stripKeys volatile x) :
    walkItems items = stripItems volatile items := by
  induction items with
  | nil => rfl
  | cons x xs ih =>
    simp only [walkItems, stripItems]
    rw [h x (List.mem_cons_self _ _), ih fun y hy => h y (List.mem_cons_of_mem _ hy)]

/-- The jq program computes the normaliser of the spec for the case-sensitive pattern. -/
theorem walk_eq_stripKeys (volatile : String → Bool) (hvol : ∀ k, volatile k = test "etag" k)
    (doc : Json) : walk doc = stripKeys volatile doc := by
  match doc with
  | .null => rfl
  | .bool b => rfl
  | .num n => rfl
  | .str s => rfl
  | .arr items =>
    simp only [walk, stripKeys]
    rw [walkItems_eq_stripItems volatile items fun x hx => by
      have : sizeOf x < sizeOf items := List.sizeOf_lt_of_mem hx
      exact walk_eq_stripKeys volatile hvol x]
  | .obj entries =>
    simp only [walk, stripKeys]
    rw [filter_walkEntries volatile hvol entries fun e he => by
      have : sizeOf e.2 < sizeOf entries := sizeOf_value_lt (k := e.1) he
      exact walk_eq_stripKeys volatile hvol e.2]
termination_by sizeOf doc
decreasing_by
  all_goals simp_wf
  all_goals omega

theorem normalizeConfig_value (r : ScrapeResult) (doc : Json)
    (h : r.Config = some (.value doc)) :
    (normalizeConfig r).Config = some (.value (walk doc)) := by
  simp [normalizeConfig, h, Marshal, ParseJQ]

theorem normalizeConfig_ID (r : ScrapeResult) : (normalizeConfig r).ID = r.ID := by
  unfold normalizeConfig
  split
  · rfl
  · split
    · rfl
    · split <;> rfl

theorem normalizeConfig_Type (r : ScrapeResult) : (normalizeConfig r).Type_ = r.Type_ := by
  unfold normalizeConfig
  split
  · rfl
  · split
    · rfl
    · split <;> rfl

theorem normalizeConfig_RelationshipResults (r : ScrapeResult) :
    (normalizeConfig r).RelationshipResults = r.RelationshipResults := by
  unfold normalizeConfig
  split
  · rfl
  · split
    · rfl
    · split <;> rfl

theorem relate_Config (config : Azure) (r : ScrapeResult) :
    (relate config r).Config = r.Config := by
  unfold relate
  simp only [if_true]
  split <;> split <;> rfl

theorem resolvePass_getElem (config : Option Azure) (results out : List ScrapeResult)
    (h : resolvePass config results = some out) (i : Nat) (r : ScrapeResult)
    (hr : results[i]? = some r) :
    ∃ r1, out[i]? = some r1 ∧ resolveOne config r = some r1 := by
  induction results generalizing out i with
  | nil => simp at hr
  | cons x xs ih =>
    simp only [resolvePass] at h
    cases hx : resolveOne config x with
    | none => simp [hx] at h
    | some x1 =>
      cases hxs : resolvePass config xs with
      | none => simp [hx, hxs] at h
      | some out1 =>
        simp only [hx, hxs, Option.some.injEq] at h
        subst h
        cases i with
        | zero =>
          simp only [List.getElem?_cons_zero, Option.some.injEq] at hr
          subst hr
          exact ⟨x1, by simp, hx⟩
        | succ j =>
          simp only [List.getElem?_cons_succ] at hr ⊢
          exact ih out1 hxs j hr

/-- C5: the resolver pass keeps the keys `ETag`, `resourceEtag` and `Etag` of a payload, which
contain "etag" in another letter case, and removes only `etag` and `subnetetag`. -/
theorem Scrape_keeps_mixed_case_etag :
    (resolvePass (some (sampleConfig "s")) [etagResult]).map
        (List.map fun r => r.Config.map Payload.keys) =
      some [some ["ETag", "name", "properties", "resourceEtag", "disks", "Etag", "lun"]] ∧
    ToLower ascii "ETag" = "etag" ∧ ToLower ascii "resourceEtag" = "resourceetag" := by
  decide

/-- C5, amended: for a result with a non-empty ID and a payload that serialises, the payload
the resolver pass stores is the jq filter of the payload: it has no key, at any depth, whose
name contains the lower-case run "etag", and it equals the payload with exactly the entries
under such keys removed, every other entry and every array element kept in place. -/
theorem Scrape_removes_lowercase_etag (config : Option Azure)
    (results out : List ScrapeResult) (i : Nat) (r : ScrapeResult) (doc : Json)
    (h : resolvePass config results = some out) (hr : results[i]? = some r)
    (hid : r.ID ≠ "") (hdoc : r.Config = some (.value doc)) :
    ∃ r1, out[i]? = some r1 ∧ r1.Config = some (.value (walk doc)) ∧
      (∀ k ∈ keysOf (walk doc), ¬ "etag".data <:+: k.data) ∧
      walk doc = stripKeys (fun k => decide ("etag".data <:+: k.data)) doc := by
  obtain ⟨r1, hout, hone⟩ := resolvePass_getElem config results out h i r hr
  refine ⟨r1, hout, ?_, ?_, ?_⟩
  · unfold resolveOne at hone
    simp only [hid, if_false] at hone
    by_cases hty : r.Type_ = ConfigTypePrefix ++ "SUBSCRIPTION"
    · simp only [hty, if_true, Option.some.injEq] at hone
      subst hone
      exact normalizeConfig_value r doc hdoc
    · simp only [hty, if_false] at hone
      cases config with
      | none => simp at hone
      | some c =>
        simp only [Option.some.injEq] at hone
        subst hone
        rw [relate_Config]
        exact normalizeConfig_value r doc hdoc
  · intro k hk hin
    have := walk_keys doc k hk
    rw [← test_iff] at hin
    simp [hin] at this
  · apply walk_eq_stripKeys
    intro k
    by_cases hk : "etag".data <:+: k.data
    · simp [hk, (test_iff "etag" k).mpr hk]
    · have : test "etag" k = false := by
        cases ht : test "etag" k with
        | false => rfl
        | true => exact absurd ((test_iff "etag" k).mp ht) hk
      simp [hk, this]

/-- C5, witness: the sample payload. -/
theorem Scrape_removes_lowercase_etag_witness :
    ∃ r1, [resolveWith (sampleConfig "s") etagResult][0]? = some r1 ∧
      r1.Config = some (.value (walk etagPayload)) ∧
      (∀ k ∈ keysOf (walk etagPayload), ¬ "etag".data <:+: k.data) ∧
      walk etagPayload = stripKeys (fun k => decide ("etag".data <:+: k.data)) etagPayload :=
  Scrape_removes_lowercase_etag (some (sampleConfig "s")) [etagResult]
    [resolveWith (sampleConfig "s") etagResult] 0 etagResult etagPayload rfl rfl (by decide) rfl

/-! ## Theorems: the relationship resolver -/

theorem subscriptionEdge_congr (config : Azure) (r1 r2 : ScrapeResult)
    (hid : r1.ID = r2.ID) (hty : r1.Type_ = r2.Type_) :
    subscriptionEdge config r1 = subscriptionEdge config r2 := by
  simp [subscriptionEdge, hid, hty]

theorem resourceGroupEdge_congr (config : Azure) (r1 r2 : ScrapeResult)
    (hid : r1.ID = r2.ID) (hty : r1.Type_ = r2.Type_) :
    resourceGroupEdge config r1 = resourceGroupEdge config r2 := by
  simp [resourceGroupEdge, hid, hty]

theorem newEdges_congr (config : Azure) (r1 r2 : ScrapeResult)
    (hid : r1.ID = r2.ID) (hty : r1.Type_ = r2.Type_) :
    newEdges config r1 = newEdges config r2 := by
  simp [newEdges, hid, hty, subscriptionEdge_congr config r1 r2 hid hty,
    resourceGroupEdge_congr config r1 r2 hid hty]

theorem relate_ID (config : Azure) (r : ScrapeResult) : (relate config r).ID = r.ID := by
  unfold relate
  simp only [if_true]
  split <;> split <;> rfl

theorem relate_Type (config : Azure) (r : ScrapeResult) : (relate config r).Type_ = r.Type_ := by
  unfold relate
  simp only [if_true]
  split <;> split <;> rfl

theorem relate_RelationshipResults (config : Azure) (r : ScrapeResult) :
    (relate config r).RelationshipResults =
      r.RelationshipResults ++
        if r.Type_ ≠ ConfigTypePrefix ++ "MICROSOFT.RESOURCES/RESOURCEGROUPS" ∧
            extractResourceGroup r.ID ≠ "" then
          [subscriptionEdge config r, resourceGroupEdge config r]
        else [subscriptionEdge config r] := by
  unfold relate
  by_cases hty : r.Type_ = ConfigTypePrefix ++ "MICROSOFT.RESOURCES/RESOURCEGROUPS"
  · simp [hty]
  · by_cases hrg : extractResourceGroup r.ID = "" <;> simp [hty, hrg]

theorem resolveWith_ID (config : Azure) (r : ScrapeResult) :
    (resolveWith config r).ID = r.ID := by
  unfold resolveWith
  split
  · rfl
  · split
    · exact normalizeConfig_ID r
    · rw [relate_ID, normalizeConfig_ID]

theorem resolveWith_Type (config : Azure) (r : ScrapeResult) :
    (resolveWith config r).Type_ = r.Type_ := by
  unfold resolveWith
  split
  · rfl
  · split
    · exact normalizeConfig_Type r
    · rw [relate_Type, normalizeConfig_Type]

/-- The resolver keeps the edges a result has and appends `newEdges`. -/
theorem resolveWith_RelationshipResults (config : Azure) (r : ScrapeResult) :
    (resolveWith config r).RelationshipResults =
      r.RelationshipResults ++ newEdges config r := by
  unfold resolveWith newEdges
  by_cases hid : r.ID = ""
  · simp [hid]
  · by_cases hty : r.Type_ = ConfigTypePrefix ++ "SUBSCRIPTION"
    · simp [hid, hty, normalizeConfig_RelationshipResults]
    · simp only [hid, hty, if_false, or_self]
      rw [relate_RelationshipResults, normalizeConfig_RelationshipResults,
        normalizeConfig_ID, normalizeConfig_Type,
        subscriptionEdge_congr config (normalizeConfig r) r (normalizeConfig_ID r)
          (normalizeConfig_Type r),
        resourceGroupEdge_congr config (normalizeConfig r) r (normalizeConfig_ID r)
          (normalizeConfig_Type r)]

theorem mem_edgesOf_resolved (config : Azure) (results : List ScrapeResult)
    (e : RelationshipResult) :
    e ∈ edgesOf (results.map (resolveWith config)) ↔
      ∃ r ∈ results, e ∈ r.RelationshipResults ∨ e ∈ newEdges config r := by
  simp only [edgesOf, List.mem_flatMap, List.mem_map]
  constructor
  · rintro ⟨r1, ⟨r, hr, rfl⟩, he⟩
    rw [resolveWith_RelationshipResults, List.mem_append] at he
    exact ⟨r, hr, he⟩
  · rintro ⟨r, hr, he⟩
    refine ⟨resolveWith config r, ⟨r, hr, rfl⟩, ?_⟩
    rw [resolveWith_RelationshipResults, List.mem_append]
    exact he

/-- C6: for a fixed configuration the resolver pass returns on every list of results; the set
of edges of its output is the same for every reordering of the list, and the same after a
second pass over its own output. -/
theorem resolver_idempotent_and_order_independent (config : Azure)
    (results reordered : List ScrapeResult) (hperm : results.Perm reordered) :
    ∃ out out1 twice,
      resolvePass (some config) results = some out ∧
      resolvePass (some config) reordered = some out1 ∧
      resolvePass (some config) out = some twice ∧
      (edgesOf out).toFinset = (edgesOf out1).toFinset ∧
      (edgesOf twice).toFinset = (edgesOf out).toFinset := by
  refine ⟨_, _, _, resolvePass_some config results, resolvePass_some config reordered,
    resolvePass_some config _, ?_, ?_⟩
  · ext e
    simp only [List.mem_toFinset, mem_edgesOf_resolved]
    constructor
    · rintro ⟨r, hr, he⟩
      exact ⟨r, hperm.mem_iff.mp hr, he⟩
    · rintro ⟨r, hr, he⟩
      exact ⟨r, hperm.mem_iff.mpr hr, he⟩
  · ext e
    simp only [List.mem_toFinset]
    rw [mem_edgesOf_resolved config (results.map (resolveWith config)), mem_edgesOf_resolved]
    constructor
    · rintro ⟨r1, hr1, he⟩
      obtain ⟨r, hr, rfl⟩ := List.mem_map.mp hr1
      rw [resolveWith_RelationshipResults, List.mem_append,
        newEdges_congr config (resolveWith config r) r (resolveWith_ID config r)
          (resolveWith_Type config r)] at he
      exact ⟨r, hr, by tauto⟩
    · rintro ⟨r, hr, he⟩
      refine ⟨resolveWith config r, List.mem_map.mpr ⟨r, hr, rfl⟩, ?_⟩
      rw [resolveWith_RelationshipResults, List.mem_append]
      exact Or.inl he

/-- C6, witness: a mapped item and an error-only result, in both orders. -/
theorem resolver_idempotent_and_order_independent_witness :
    ∃ out out1 twice,
      resolvePass (some (sampleConfig "s")) [etagResult, errorResult "boom"] = some out ∧
      resolvePass (some (sampleConfig "s")) [errorResult "boom", etagResult] = some out1 ∧
      resolvePass (some (sampleConfig "s")) out = some twice ∧
      (edgesOf out).toFinset = (edgesOf out1).toFinset ∧
      (edgesOf twice).toFinset = (edgesOf out).toFinset :=
  resolver_idempotent_and_order_independent (sampleConfig "s")
    [etagResult, errorResult "boom"] [errorResult "boom", etagResult]
    (List.Perm.swap (errorResult "boom") etagResult [])

theorem TrimPrefix_append (p t : String) : TrimPrefix (p ++ t) p = t := by
  unfold TrimPrefix
  have hpre : p.data.isPrefixOf (p ++ t).data = true := by
    rw [String.data_append, List.isPrefixOf_iff_prefix]
    exact List.prefix_append _ _
  rw [if_pos hpre]
  simp [String.data_append]

theorem resolvePass_some_getElem (config : Azure) (results : List ScrapeResult) (i : Nat)
    (r : ScrapeResult) (hr : results[i]? = some r) :
    (results.map (resolveWith config))[i]? = some (resolveWith config r) := by
  simp [List.getElem?_map, hr]

/-- C10: a result with a non-empty ID whose type is not `Azure::SUBSCRIPTION` leaves the
resolver pass with its edges followed by the ownership edge and, at most, edges to other
types; the label of the ownership edge is `Subscription` followed by the type without its
leading `Azure::`, whatever the result and the configuration are. -/
theorem Scrape_ownership_edge (config : Azure) (results : List ScrapeResult) (i : Nat)
    (r : ScrapeResult) (hr : results[i]? = some r) (hid : r.ID ≠ "")
    (hty : r.Type_ ≠ "Azure::SUBSCRIPTION") :
    ∃ out r1 rest,
      resolvePass (some config) results = some out ∧ out[i]? = some r1 ∧
      r1.RelationshipResults =
        r.RelationshipResults ++
          { ConfigExternalID := { ExternalID := [r.ID], ConfigType := r.Type_ }
            RelatedExternalID :=
              { ExternalID := ["/subscriptions/" ++ config.SubscriptionID]
                ConfigType := "Azure::SUBSCRIPTION" }
            Relationship := "Subscription" ++ TrimPrefix r.Type_ "Azure::" } :: rest ∧
      (∀ e ∈ rest, e.RelatedExternalID.ConfigType ≠ "Azure::SUBSCRIPTION") ∧
      (∀ t, r.Type_ = "Azure::" ++ t → TrimPrefix r.Type_ "Azure::" = t) ∧
      ∀ (c2 : Azure) (r2 : ScrapeResult), r2.ID ≠ "" → r2.Type_ = r.Type_ →
        ∃ e ∈ (resolveWith c2 r2).RelationshipResults,
          e.RelatedExternalID.ConfigType = "Azure::SUBSCRIPTION" ∧
          e.Relationship = "Subscription" ++ TrimPrefix r.Type_ "Azure::" := by
  have hty1 : ¬ r.Type_ = ConfigTypePrefix ++ "SUBSCRIPTION" := hty
  have hedges : ∀ (c : Azure) (x : ScrapeResult), x.ID ≠ "" → x.Type_ = r.Type_ →
      ∃ rest, newEdges c x = subscriptionEdge c x :: rest ∧
        ∀ e ∈ rest, e.RelatedExternalID.ConfigType ≠ "Azure::SUBSCRIPTION" := by
    intro c x hx hxt
    unfold newEdges
    rw [if_neg (by rw [hxt]; simp [hx, hty1])]
    split
    · refine ⟨[resourceGroupEdge c x], rfl, ?_⟩
      intro e he
      rw [List.mem_singleton] at he
      subst he
      simp only [resourceGroupEdge, ConfigTypePrefix]
      decide
    · exact ⟨[], rfl, by simp⟩
  obtain ⟨rest, hnew, hrest⟩ := hedges config r hid rfl
  refine ⟨_, resolveWith config r, rest, resolvePass_some config results,
    resolvePass_some_getElem config results i r hr, ?_, hrest, ?_, ?_⟩
  · rw [resolveWith_RelationshipResults, hnew]
    rfl
  · intro t ht
    rw [ht]
    exact TrimPrefix_append "Azure::" t
  · intro c2 r2 hid2 hty2
    obtain ⟨rest2, hnew2, _⟩ := hedges c2 r2 hid2 hty2
    refine ⟨subscriptionEdge c2 r2, ?_, rfl, ?_⟩
    · rw [resolveWith_RelationshipResults, hnew2]
      simp
    · simp [subscriptionEdge, hty2, ConfigTypePrefix]

/-- C10, witness: the sample virtual machine. -/
theorem Scrape_ownership_edge_witness :
    ∃ out r1 rest,
      resolvePass (some (sampleConfig "s")) [etagResult] = some out ∧ out[0]? = some r1 ∧
      r1.RelationshipResults =
        etagResult.RelationshipResults ++
          { ConfigExternalID := { ExternalID := [etagResult.ID], ConfigType := etagResult.Type_ }
            RelatedExternalID :=
              { ExternalID := ["/subscriptions/" ++ (sampleConfig "s").SubscriptionID]
                ConfigType := "Azure::SUBSCRIPTION" }
            Relationship := "Subscription" ++ TrimPrefix etagResult.Type_ "Azure::" } :: rest ∧
      (∀ e ∈ rest, e.RelatedExternalID.ConfigType ≠ "Azure::SUBSCRIPTION") ∧
      (∀ t, etagResult.Type_ = "Azure::" ++ t → TrimPrefix etagResult.Type_ "Azure::" = t) ∧
      ∀ (c2 : Azure) (r2 : ScrapeResult), r2.ID ≠ "" → r2.Type_ = etagResult.Type_ →
        ∃ e ∈ (resolveWith c2 r2).RelationshipResults,
          e.RelatedExternalID.ConfigType = "Azure::SUBSCRIPTION" ∧
          e.Relationship = "Subscription" ++ TrimPrefix etagResult.Type_ "Azure::" :=
  Scrape_ownership_edge (sampleConfig "s") [etagResult] 0 etagResult rfl (by decide) (by decide)

/-! ## Theorems: resource ids -/

theorem splitRunes_ne_nil (sep : Char) (s : List Char) : splitRunes sep s ≠ [] := by
  cases s with
  | nil => simp [splitRunes]
  | cons c cs =>
    simp only [splitRunes]
    split
    · simp
    · split <;> simp

theorem splitRunes_cons_sep (sep : Char) (cs : List Char) :
    splitRunes sep (sep :: cs) = [] :: splitRunes sep cs := by
  simp [splitRunes]

theorem splitRunes_cons_of_ne (sep c : Char) (cs : List Char) (h : c ≠ sep) :
    ∃ seg rest, splitRunes sep cs = seg :: rest ∧
      splitRunes sep (c :: cs) = (c :: seg) :: rest := by
  cases hs : splitRunes sep cs with
  | nil => exact absurd hs (splitRunes_ne_nil sep cs)
  | cons seg rest => exact ⟨seg, rest, rfl, by simp [splitRunes, h, hs]⟩

/-- Joining the segments with the separator gives the string back. -/
theorem intercalate_splitRunes (sep : Char) (s : List Char) :
    List.intercalate [sep] (splitRunes sep s) = s := by
  induction s with
  | nil => rfl
  | cons c cs ih =>
    by_cases h : c = sep
    · subst h
      rw [splitRunes_cons_sep]
      cases hs : splitRunes c cs with
      | nil => exact absurd hs (splitRunes_ne_nil c cs)
      | cons seg rest =>
        rw [hs] at ih
        simp only [List.intercalate, List.intersperse, List.flatten_cons, List.nil_append,
          List.singleton_append] at ih ⊢
        rw [ih]
    · obtain ⟨seg, rest, hs, hc⟩ := splitRunes_cons_of_ne sep c cs h
      rw [hc]
      rw [hs] at ih
      cases rest with
      | nil =>
        simp only [List.intercalate, List.intersperse, List.flatten_cons, List.flatten_nil,
          List.append_nil] at ih ⊢
        rw [ih]
      | cons seg2 rest2 =>
        simp only [List.intercalate, List.intersperse, List.flatten_cons,
          List.cons_append] at ih ⊢
        rw [ih]

/-- No segment holds the separator. -/
theorem splitRunes_no_sep (sep : Char) (s : List Char) :
    ∀ seg ∈ splitRunes sep s, sep ∉ seg := by
  induction s with
  | nil => simp [splitRunes]
  | cons c cs ih =>
    by_cases h : c = sep
    · subst h
      rw [splitRunes_cons_sep]
      intro seg hseg
      rcases List.mem_cons.mp hseg with h1 | h1
      · subst h1
        simp
      · exact ih seg h1
    · obtain ⟨seg0, rest, hs, hc⟩ := splitRunes_cons_of_ne sep c cs h
      rw [hc]
      rw [hs] at ih
      intro seg hseg
      rcases List.mem_cons.mp hseg with h1 | h1
      · subst h1
        intro hmem
        rcases List.mem_cons.mp hmem with h2 | h2
        · exact h h2.symm
        · exact ih seg0 (List.mem_cons_self _ _) h2
      · exact ih seg (List.mem_cons_of_mem _ h1)

theorem extractResourceGroup_eq (resourceID : String) :
    extractResourceGroup resourceID =
      match pathSegments resourceID with
      | _ :: _ :: s2 :: s3 :: _ => if s2 ≠ "resourcegroups" then "" else s3
      | _ => "" := rfl

/-- C7: `extractResourceGroup` on the id of the spec, with `resourceGroups` in camel case:
the id has seven segments, the third equals "resourcegroups" when letter case is ignored, and
the function returns the empty string, not "RG". -/
theorem extractResourceGroup_camel_case :
    extractResourceGroup "/subscriptions/S/resourceGroups/RG/providers/.../X" = "" ∧
    pathSegments "/subscriptions/S/resourceGroups/RG/providers/.../X" =
      ["subscriptions", "S", "resourceGroups", "RG", "providers", "...", "X"] ∧
    ToLower ascii "resourceGroups" = "resourcegroups" := by
  decide

/-- C7, amended: after trimming surrounding spaces and one leading slash and splitting on
"/", `extractResourceGroup` returns the 4th segment when there are at least 4 segments and
the 3rd segment is exactly "resourcegroups", in lower case, and the empty string otherwise.
The segments hold no "/" and, joined by "/", give the trimmed id back. On the lower-cased id
of the spec the result is "rg"; on the id as the spec writes it the result is empty. -/
theorem extractResourceGroup_exact_rule (resourceID : String) :
    extractResourceGroup resourceID =
      (if 4 ≤ (pathSegments resourceID).length ∧
          (pathSegments resourceID)[2]? = some "resourcegroups" then
        ((pathSegments resourceID)[3]?).getD ""
      else "") ∧
    (∀ seg ∈ pathSegments resourceID, '/' ∉ seg.data) ∧
    List.intercalate ['/'] ((pathSegments resourceID).map String.data) =
      (TrimPrefix (Trim resourceID " ") "/").data ∧
    ((pathSegments resourceID).length < 4 → extractResourceGroup resourceID = "") ∧
    extractResourceGroup "/subscriptions/s/resourcegroups/rg/providers/.../x" = "rg" ∧
    extractResourceGroup "/subscriptions/S/resourceGroups/RG/providers/.../X" = "" := by
  have hrule : extractResourceGroup resourceID =
      (if 4 ≤ (pathSegments resourceID).length ∧
          (pathSegments resourceID)[2]? = some "resourcegroups" then
        ((pathSegments resourceID)[3]?).getD ""
      else "") := by
    rw [extractResourceGroup_eq]
    generalize pathSegments resourceID = segs
    rcases segs with _ | ⟨a, _ | ⟨b, _ | ⟨c, _ | ⟨d, rest⟩⟩⟩⟩
    · simp
    · simp
    · simp
    · simp
    · by_cases hc : c = "resourcegroups" <;> simp [hc]
  have hmap : (pathSegments resourceID).map String.data =
      splitRunes '/' (TrimPrefix (Trim resourceID " ") "/").data := by
    simp [pathSegments, Split, Function.comp_def]
  refine ⟨hrule, ?_, ?_, ?_, by decide, by decide⟩
  · intro seg hseg
    apply splitRunes_no_sep '/' (TrimPrefix (Trim resourceID " ") "/").data
    rw [← hmap]
    exact List.mem_map.mpr ⟨seg, hseg, rfl⟩
  · rw [hmap, intercalate_splitRunes]
  · intro hlt
    rw [hrule, if_neg]
    omega

theorem ascii_separating : ascii.Separating := by
  have key : ∀ x : Char, ¬ (97 ≤ x.toNat ∧ x.toNat ≤ 122) → ¬ (65 ≤ x.toNat ∧ x.toNat ≤ 90) →
      ∀ c : Char, Char.toLower c = x ↔ c = x := by
    intro x hx hx2 c
    constructor
    · intro h
      simp only [Char.toLower] at h
      by_cases hc : c.toNat ≥ 65 ∧ c.toNat ≤ 90
      · rw [if_pos hc] at h
        exfalso
        apply hx
        rw [← h]
        have hv : (c.toNat + 32).isValidChar := by
          left
          omega
        have hn : (Char.ofNat (c.toNat + 32)).toNat = c.toNat + 32 := by
          unfold Char.ofNat
          rw [dif_pos hv]
          rfl
        omega
      · rw [if_neg hc] at h
        exact h
    · rintro rfl
      simp only [Char.toLower]
      rw [if_neg hx2]
  intro c
  exact ⟨key '/' (by decide) (by decide) c, key ' ' (by decide) (by decide) c⟩

theorem trimLeft_map (U : Unicode) (hU : U.Separating) (l : List Char) :
    trimLeft " ".data (l.map U.ToLower) = (trimLeft " ".data l).map U.ToLower := by
  induction l with
  | nil => rfl
  | cons c cs ih =>
    have hc : (" ".data.contains (U.ToLower c)) = (" ".data.contains c) := by
      have h1 : " ".data = [' '] := rfl
      rw [h1]
      by_cases h : c = ' '
      · have h2 := (hU c).2.mpr h
        rw [h2, h]
      · have h2 : ¬ U.ToLower c = ' ' := fun h2 => h ((hU c).2.mp h2)
        simp [h, h2]
    unfold trimLeft at ih ⊢
    simp only [List.map_cons, List.dropWhile_cons, hc]
    split
    · exact ih
    · rfl

theorem Trim_ToLower (U : Unicode) (hU : U.Separating) (s : String) :
    Trim (ToLower U s) " " = ToLower U (Trim s " ") := by
  simp only [Trim, ToLower, trimLeft_map U hU, ← List.map_reverse]

theorem TrimPrefix_ToLower (U : Unicode) (hU : U.Separating) (s : String) :
    TrimPrefix (ToLower U s) "/" = ToLower U (TrimPrefix s "/") := by
  obtain ⟨l⟩ := s
  have h1 : "/".data = ['/'] := rfl
  unfold TrimPrefix ToLower
  simp only [h1]
  cases l with
  | nil => rfl
  | cons c cs =>
    by_cases h : c = '/'
    · have h2 := (hU c).1.mpr h
      subst h
      have e1 : List.isPrefixOf ['/'] ('/' :: List.map U.ToLower cs) = true := by
        simp [List.isPrefixOf]
      have e2 : List.isPrefixOf ['/'] ('/' :: cs) = true := by
        simp [List.isPrefixOf]
      simp only [List.map_cons, h2, e1, e2, if_true]
      rfl
    · have h2 : ¬ U.ToLower c = '/' := fun h2 => h ((hU c).1.mp h2)
      have e1 : List.isPrefixOf ['/'] (List.map U.ToLower (c :: cs)) = false := by
        simp [List.isPrefixOf, Ne.symm h2]
      have e2 : List.isPrefixOf ['/'] (c :: cs) = false := by
        simp [List.isPrefixOf, Ne.symm h]
      simp only [e1, e2]
      rfl

theorem splitRunes_map (U : Unicode) (hU : U.Separating) (l : List Char) :
    splitRunes '/' (l.map U.ToLower) = (splitRunes '/' l).map (List.map U.ToLower) := by
  induction l with
  | nil => rfl
  | cons c cs ih =>
    by_cases h : c = '/'
    · have h2 := (hU c).1.mpr h
      simp only [List.map_cons, h2]
      subst h
      rw [splitRunes_cons_sep, splitRunes_cons_sep, ih]
      rfl
    · have h2 : ¬ U.ToLower c = '/' := fun h3 => h ((hU c).1.mp h3)
      obtain ⟨seg, rest, hs, hc⟩ := splitRunes_cons_of_ne '/' c cs h
      obtain ⟨seg1, rest1, hs1, hc1⟩ :=
        splitRunes_cons_of_ne '/' (U.ToLower c) (cs.map U.ToLower) h2
      rw [List.map_cons, hc1, hc]
      rw [ih, hs] at hs1
      simp only [List.map_cons, List.cons.injEq] at hs1
      rw [← hs1.1, ← hs1.2]
      rfl

/-- Lower-casing an id lower-cases its segments one by one. -/
theorem pathSegments_ToLower (U : Unicode) (hU : U.Separating) (s : String) :
    pathSegments (ToLower U s) = (pathSegments s).map (ToLower U) := by
  unfold pathSegments
  rw [Trim_ToLower U hU, TrimPrefix_ToLower U hU]
  simp only [Split, ToLower, splitRunes_map U hU, List.map_map]
  rfl

theorem ToLower_eq_empty (U : Unicode) (s : String) : ToLower U s = "" ↔ s = "" := by
  obtain ⟨l⟩ := s
  cases l with
  | nil => simp [ToLower]
  | cons c cs =>
    constructor
    · intro h
      have := congrArg String.data h
      simp [ToLower] at this
    · intro h
      have := congrArg String.data h
      simp at this

/-- C8: the mapped item of the native id "/subscriptions/S/resourceGroups/" has four path
segments, the third equal to "resourcegroups" when letter case is ignored, and an empty
fourth one; the resolver gives it the ownership edge only, no containment edge. -/
theorem Scrape_no_containment_for_empty_segment :
    pathSegments "/subscriptions/S/resourceGroups/" =
      ["subscriptions", "S", "resourceGroups", ""] ∧
    ToLower ascii "resourceGroups" = "resourcegroups" ∧
    (resolvePass (some (sampleConfig "S"))
        [vmResult ascii (sampleConfig "S") "/subscriptions/S/resourceGroups/"]).map
        (List.map fun r => r.RelationshipResults) =
      some [[{ ConfigExternalID :=
                 { ExternalID := ["/subscriptions/s/resourcegroups/"]
                   ConfigType := "Azure::Microsoft.Compute/virtualMachines" }
               RelatedExternalID :=
                 { ExternalID := ["/subscriptions/S"], ConfigType := "Azure::SUBSCRIPTION" }
               Relationship := "SubscriptionMicrosoft.Compute/virtualMachines" }]] := by
  decide

/-- C8, amended: for a native id with at least four path segments, the third equal to
"resourcegroups" when lower-cased and the fourth not empty, the item mapped from it, of a
type that is neither the subscription nor the resource-group type, leaves the resolver pass
with its edges followed by the ownership edge and one containment edge, whose target is
"/subscriptions/" + SubscriptionID + "/resourcegroups/" + the lower-cased fourth segment,
whatever the other results are. -/
theorem Scrape_containment_edge (U : Unicode) (hU : U.Separating) (config : Azure)
    (n s0 s1 s2 s3 : String) (more : List String)
    (hseg : pathSegments n = s0 :: s1 :: s2 :: s3 :: more)
    (hmarker : ToLower U s2 = "resourcegroups") (hname : s3 ≠ "")
    (results : List ScrapeResult) (i : Nat) (r : ScrapeResult)
    (hr : results[i]? = some r) (hid : r.ID = getARMID U (some n))
    (hsub : r.Type_ ≠ "Azure::SUBSCRIPTION")
    (hrg : r.Type_ ≠ "Azure::MICROSOFT.RESOURCES/RESOURCEGROUPS") :
    ∃ out r1,
      resolvePass (some config) results = some out ∧ out[i]? = some r1 ∧
      r1.RelationshipResults =
        r.RelationshipResults ++
          [{ ConfigExternalID := { ExternalID := [r.ID], ConfigType := r.Type_ }
             RelatedExternalID :=
               { ExternalID := ["/subscriptions/" ++ config.SubscriptionID]
                 ConfigType := "Azure::SUBSCRIPTION" }
             Relationship := "Subscription" ++ TrimPrefix r.Type_ "Azure::" },
           { ConfigExternalID := { ExternalID := [r.ID], ConfigType := r.Type_ }
             RelatedExternalID :=
               { ExternalID :=
                   ["/subscriptions/" ++ config.SubscriptionID ++ "/resourcegroups/" ++
                     ToLower U s3]
                 ConfigType := "Azure::MICROSOFT.RESOURCES/RESOURCEGROUPS" }
             Relationship := "Resourcegroup" ++ TrimPrefix r.Type_ "Azure::" }] := by
  have hID : r.ID = ToLower U n := hid
  have hextract : extractResourceGroup r.ID = ToLower U s3 := by
    rw [hID, extractResourceGroup_eq, pathSegments_ToLower U hU, hseg]
    simp [hmarker]
  have hne : extractResourceGroup r.ID ≠ "" := by
    rw [hextract]
    exact fun h => hname ((ToLower_eq_empty U s3).mp h)
  have hid0 : r.ID ≠ "" := by
    intro h
    apply hne
    rw [h]
    decide
  have hsub1 : ¬ r.Type_ = ConfigTypePrefix ++ "SUBSCRIPTION" := hsub
  have hrg1 : r.Type_ ≠ ConfigTypePrefix ++ "MICROSOFT.RESOURCES/RESOURCEGROUPS" := hrg
  refine ⟨_, resolveWith config r, resolvePass_some config results,
    resolvePass_some_getElem config results i r hr, ?_⟩
  rw [resolveWith_RelationshipResults]
  unfold newEdges
  rw [if_neg (by simp [hid0, hsub1]), if_pos ⟨hrg1, hne⟩]
  simp only [subscriptionEdge, resourceGroupEdge, hextract]
  rfl

/-- C8, witness: the native id "/subscriptions/S/resourceGroups/RG/vm1" with SubscriptionID
"S" gives the target "/subscriptions/S/resourcegroups/rg", with no other result in the set. -/
theorem Scrape_containment_edge_witness :
    ∃ out r1,
      resolvePass (some (sampleConfig "S"))
          [vmResult ascii (sampleConfig "S") "/subscriptions/S/resourceGroups/RG/vm1"] =
        some out ∧
      out[0]? = some r1 ∧
      r1.RelationshipResults =
        [] ++
          [{ ConfigExternalID :=
               { ExternalID := ["/subscriptions/s/resourcegroups/rg/vm1"]
                 ConfigType := "Azure::Microsoft.Compute/virtualMachines" }
             RelatedExternalID :=
               { ExternalID := ["/subscriptions/" ++ "S"], ConfigType := "Azure::SUBSCRIPTION" }
             Relationship :=
               "Subscription" ++
                 TrimPrefix "Azure::Microsoft.Compute/virtualMachines" "Azure::" },
           { ConfigExternalID :=
               { ExternalID := ["/subscriptions/s/resourcegroups/rg/vm1"]
                 ConfigType := "Azure::Microsoft.Compute/virtualMachines" }
             RelatedExternalID :=
               { ExternalID := ["/subscriptions/" ++ "S" ++ "/resourcegroups/" ++ "rg"]
                 ConfigType := "Azure::MICROSOFT.RESOURCES/RESOURCEGROUPS" }
             Relationship :=
               "Resourcegroup" ++
                 TrimPrefix "Azure::Microsoft.Compute/virtualMachines" "Azure::" }] :=
  Scrape_containment_edge ascii ascii_separating (sampleConfig "S")
    "/subscriptions/S/resourceGroups/RG/vm1" "subscriptions" "S" "resourceGroups" "RG" ["vm1"]
    (by decide) (by decide) (by decide)
    [vmResult ascii (sampleConfig "S") "/subscriptions/S/resourceGroups/RG/vm1"] 0
    (vmResult ascii (sampleConfig "S") "/subscriptions/S/resourceGroups/RG/vm1")
    rfl rfl (by decide) (by decide)

/-- C9: a call of `Scrape` that discovers the subscription "0a1b" of its own block returns the
subscription item with the type `Azure::Subscription` and with an ownership edge whose
target is the item's own id. -/
theorem Scrape_subscription_gets_ownership_edge :
    (Scrape ascii [(sampleAzure "0a1b", subscriptionWorld)]).map
        (List.map fun r => (r.ID, r.Type_, r.RelationshipResults)) =
      some [("/subscriptions/0a1b", "Azure::Subscription",
        [{ ConfigExternalID :=
             { ExternalID := ["/subscriptions/0a1b"], ConfigType := "Azure::Subscription" }
           RelatedExternalID :=
             { ExternalID := ["/subscriptions/0a1b"], ConfigType := "Azure::SUBSCRIPTION" }
           Relationship := "SubscriptionSubscription" }])] := by
  decide

/-! ## Theorems: `Scrape` as a whole -/

theorem scrapeBlock_unset (U : Unicode) (st st1 : ScrapeState) (b : Azure × BlockWorld)
    (h : scrapeBlock U st b = some st1)
    (hst : st.config = none → ∀ r ∈ st.results, r.ID = "") :
    st1.config = none → ∀ r ∈ st1.results, r.ID = "" := by
  obtain ⟨t, w⟩ := b
  unfold scrapeBlock at h
  cases hh : hydrateConnection w t with
  | error e =>
    simp only [hh, Option.some.injEq] at h
    subst h
    intro hc r hr
    simp only [Errorf, List.mem_append, List.mem_singleton] at hr
    rcases hr with hr | hr
    · exact hst hc r hr
    · subst hr
      rfl
  | ok config =>
    simp only [hh] at h
    cases hcr : w.credential with
    | error e =>
      simp only [hcr, Option.some.injEq] at h
      subst h
      intro hc r hr
      simp only [Errorf, List.mem_append, List.mem_singleton] at hr
      rcases hr with hr | hr
      · exact hst hc r hr
      · subst hr
        rfl
    | ok u =>
      simp only [hcr] at h
      cases hf : fetchAll U config w with
      | none => simp [hf] at h
      | some rs =>
        simp only [hf, Option.some.injEq] at h
        subst h
        intro hc
        simp at hc

theorem scrapeBlocks_unset (U : Unicode) (st st1 : ScrapeState)
    (blocks : List (Azure × BlockWorld)) (h : scrapeBlocks U st blocks = some st1)
    (hst : st.config = none → ∀ r ∈ st.results, r.ID = "") :
    st1.config = none → ∀ r ∈ st1.results, r.ID = "" := by
  induction blocks generalizing st with
  | nil =>
    simp only [scrapeBlocks, Option.some.injEq] at h
    subst h
    exact hst
  | cons b bs ih =>
    simp only [scrapeBlocks] at h
    cases hb : scrapeBlock U st b with
    | none => simp [hb] at h
    | some s1 =>
      simp only [hb] at h
      exact ih s1 h (scrapeBlock_unset U st s1 b hb hst)

theorem resolvePass_of_empty_ids (config : Option Azure) (results : List ScrapeResult)
    (h : ∀ r ∈ results, r.ID = "") : resolvePass config results = some results := by
  induction results with
  | nil => rfl
  | cons r rs ih =>
    have hr : r.ID = "" := h r (List.mem_cons_self _ _)
    simp [resolvePass, resolveOne, hr, ih fun x hx => h x (List.mem_cons_of_mem _ hx)]

/-- The second loop of `Scrape` never reads a nil `azure.config`: while no block has got its
credentials every result is an error-only result, which the loop skips. So `Scrape` returns
whenever its first loop does, with every result resolved against the last configuration. -/
theorem Scrape_eq (U : Unicode) (blocks : List (Azure × BlockWorld)) :
    Scrape U blocks =
      (scrapeBlocks U ⟨[], none⟩ blocks).map fun st =>
        match st.config with
        | some config => st.results.map (resolveWith config)
        | none => st.results := by
  unfold Scrape
  cases h : scrapeBlocks U ⟨[], none⟩ blocks with
  | none => rfl
  | some st =>
    simp only [Option.map_some']
    cases hc : st.config with
    | some config => exact resolvePass_some config st.results
    | none =>
      exact resolvePass_of_empty_ids none st.results
        (scrapeBlocks_unset U _ st blocks h (fun _ r hr => by simp at hr) hc)

/-- The scenario of three categories of which the second fails before yielding an item: the
output holds the items of the first and the third and one error-only result between them. -/
theorem Scrape_three_categories :
    (Scrape ascii [(sampleAzure "S", threeCategoryWorld)]).map
        (List.map fun r => (r.ID, r.ConfigClass, r.Error)) =
      some [("/subscriptions/s/resourcegroups/rg", "ResourceGroup", none),
            ("", "", some "failed read virtual machine page: throttled"),
            ("/subscriptions/s/resourcegroups/rg/lb1", "LoadBalancer", none)] := by
  decide

/-- What `fetchSubscriptions` makes of a subscription never has the type the resolver skips. -/
theorem mapItem_subscription_type (U : Unicode) (config : Azure) (v : NativeItem)
    (r : ScrapeResult) (h : mapItem U config .subscriptions v = some r) :
    r.Type_ = "Azure::Subscription" ∧ r.Type_ ≠ ConfigTypePrefix ++ "SUBSCRIPTION" := by
  unfold mapItem at h
  cases hn : v.Name with
  | none => simp [hn] at h
  | some d =>
    simp only [hn, Option.some.injEq] at h
    subst h
    have hne : getARMType (some "Subscription") ≠ ConfigTypePrefix ++ "SUBSCRIPTION" := by
      decide
    exact ⟨rfl, hne⟩

theorem mapItem_vmResult (U : Unicode) (config : Azure) (nativeID : String) :
    mapItem U config .virtualMachines
        (nativeItem nativeID "vm1" "Microsoft.Compute/virtualMachines") =
      some (vmResult U config nativeID) := rfl

/-- Every subscription that `fetchSubscriptions` maps, of a non-empty id, leaves the resolver
with the ownership edge appended: the branch that skips subscriptions is never taken. -/
theorem subscription_item_gets_edge (U : Unicode) (config final : Azure) (v : NativeItem)
    (r : ScrapeResult) (h : mapItem U config .subscriptions v = some r) (hid : r.ID ≠ "") :
    ∃ rest, (resolveWith final r).RelationshipResults = subscriptionEdge final r :: rest := by
  obtain ⟨_, hty⟩ := mapItem_subscription_type U config v r h
  have hrel : r.RelationshipResults = [] := by
    unfold mapItem at h
    cases hn : v.Name with
    | none => simp [hn] at h
    | some d =>
      simp only [hn, Option.some.injEq] at h
      subst h
      rfl
  rw [resolveWith_RelationshipResults, hrel, List.nil_append]
  unfold newEdges
  rw [if_neg (by simp [hid, hty])]
  split
  · exact ⟨_, rfl⟩
  · exact ⟨_, rfl⟩

/-! ## Theorems: frames -/

theorem normalizeConfig_frame (r : ScrapeResult) :
    ∃ cfg, normalizeConfig r = { r with Config := cfg } := by
  unfold normalizeConfig
  split
  · exact ⟨r.Config, rfl⟩
  · split
    · exact ⟨r.Config, rfl⟩
    · split
      · exact ⟨r.Config, rfl⟩
      · exact ⟨_, rfl⟩

theorem relate_frame (config : Azure) (r : ScrapeResult) :
    ∃ edges, relate config r =
      { r with RelationshipResults := r.RelationshipResults ++ edges } := by
  unfold relate
  by_cases hty : r.Type_ = ConfigTypePrefix ++ "MICROSOFT.RESOURCES/RESOURCEGROUPS"
  · exact ⟨[subscriptionEdge config r], by simp [hty]⟩
  · by_cases hrg : extractResourceGroup r.ID = ""
    · exact ⟨[subscriptionEdge config r], by simp [hty, hrg]⟩
    · exact ⟨[subscriptionEdge config r, resourceGroupEdge config r], by simp [hty, hrg]⟩

/-- What the loop body does to one result: it may replace the payload and append edges, and
nothing else; a result with an empty ID is returned as it is. -/
theorem resolveOne_frame (config : Option Azure) (r r1 : ScrapeResult)
    (h : resolveOne config r = some r1) :
    (∃ cfg edges, r1 =
      { r with Config := cfg, RelationshipResults := r.RelationshipResults ++ edges }) ∧
    (r.ID = "" → r1 = r) := by
  unfold resolveOne at h
  by_cases hid : r.ID = ""
  · simp only [hid, if_true, Option.some.injEq] at h
    subst h
    exact ⟨⟨r.Config, [], by simp⟩, fun _ => rfl⟩
  · simp only [hid, if_false] at h
    refine ⟨?_, fun h0 => absurd h0 hid⟩
    obtain ⟨cfg, hcfg⟩ := normalizeConfig_frame r
    by_cases hty : r.Type_ = ConfigTypePrefix ++ "SUBSCRIPTION"
    · simp only [hty, if_true, Option.some.injEq] at h
      subst h
      exact ⟨cfg, [], by rw [hcfg]; simp⟩
    · simp only [hty, if_false] at h
      cases config with
      | none => simp at h
      | some c =>
        simp only [Option.some.injEq] at h
        subst h
        obtain ⟨edges, hedges⟩ := relate_frame c (normalizeConfig r)
        refine ⟨cfg, edges, ?_⟩
        rw [hedges, hcfg]

theorem resolvePass_length (config : Option Azure) (results out : List ScrapeResult)
    (h : resolvePass config results = some out) : out.length = results.length := by
  induction results generalizing out with
  | nil =>
    simp only [resolvePass, Option.some.injEq] at h
    subst h
    rfl
  | cons x xs ih =>
    simp only [resolvePass] at h
    cases hx : resolveOne config x with
    | none => simp [hx] at h
    | some x1 =>
      cases hxs : resolvePass config xs with
      | none => simp [hx, hxs] at h
      | some out1 =>
        simp only [hx, hxs, Option.some.injEq] at h
        subst h
        simp [ih out1 hxs]

/-- C17: the resolver pass returns a list of the same length in the same order; every result
keeps its ID, Name, Type, ConfigClass, Error and base scraper, and its edges as a prefix of
its new edges; a result with an empty ID is returned unchanged. -/
theorem resolvePass_frame (config : Option Azure) (results out : List ScrapeResult)
    (h : resolvePass config results = some out) :
    out.length = results.length ∧
    ∀ (i : Nat) (r : ScrapeResult), results[i]? = some r →
      ∃ r1, out[i]? = some r1 ∧
        r1.ID = r.ID ∧ r1.Name = r.Name ∧ r1.Type_ = r.Type_ ∧
        r1.ConfigClass = r.ConfigClass ∧ r1.Error = r.Error ∧
        r1.BaseScraper = r.BaseScraper ∧
        r.RelationshipResults <+: r1.RelationshipResults ∧
        (r.ID = "" → r1 = r) := by
  refine ⟨resolvePass_length config results out h, fun i r hr => ?_⟩
  obtain ⟨r1, hout, hone⟩ := resolvePass_getElem config results out h i r hr
  obtain ⟨⟨cfg, edges, hr1⟩, hempty⟩ := resolveOne_frame config r r1 hone
  refine ⟨r1, hout, ?_, ?_, ?_, ?_, ?_, ?_, ?_, hempty⟩
  all_goals subst hr1
  all_goals first | rfl | exact List.prefix_append _ _

/-- C17, witness: a mapped item and an error-only result. -/
theorem resolvePass_frame_witness :
    [resolveWith (sampleConfig "s") etagResult, errorResult "boom"].length =
      [etagResult, errorResult "boom"].length ∧
    ∀ (i : Nat) (r : ScrapeResult), [etagResult, errorResult "boom"][i]? = some r →
      ∃ r1, [resolveWith (sampleConfig "s") etagResult, errorResult "boom"][i]? = some r1 ∧
        r1.ID = r.ID ∧ r1.Name = r.Name ∧ r1.Type_ = r.Type_ ∧
        r1.ConfigClass = r.ConfigClass ∧ r1.Error = r.Error ∧
        r1.BaseScraper = r.BaseScraper ∧
        r.RelationshipResults <+: r1.RelationshipResults ∧
        (r.ID = "" → r1 = r) :=
  resolvePass_frame (some (sampleConfig "s")) [etagResult, errorResult "boom"]
    [resolveWith (sampleConfig "s") etagResult, errorResult "boom"] rfl

theorem detachRow_frame (q : List (Option String)) (id : String) (c : ConfigItem) :
    (detachRow q id c).id = c.id ∧ (detachRow q id c).deleted_at = c.deleted_at ∧
      (c.scraper_id ≠ some id → detachRow q id c = c) := by
  rw [detachRow_eq]
  by_cases h : some c.id ∈ q ∧ c.scraper_id = some id
  · rw [if_pos h]
    exact ⟨rfl, rfl, fun hne => absurd h.2 hne⟩
  · rw [if_neg h]
    exact ⟨rfl, rfl, fun _ => rfl⟩

theorem softDeleteRow_frame (q : List (Option String)) (now : Nat) (id : String)
    (c : ConfigItem) :
    (softDeleteRow q now id c).id = c.id ∧
      (softDeleteRow q now id c).scraper_id = c.scraper_id ∧
      (c.scraper_id ≠ some id → softDeleteRow q now id c = c) := by
  rw [softDeleteRow_eq]
  by_cases h : (some c.id ∉ q ∧ none ∉ q) ∧ c.scraper_id = some id
  · rw [if_pos h]
    exact ⟨rfl, rfl, fun hne => absurd h.2 hne⟩
  · rw [if_neg h]
    exact ⟨rfl, rfl, fun _ => rfl⟩

theorem updateScraperDeletedAt_row (now : Nat) (id : String) (s : ConfigScraper) :
    (if (sqlEq (some s.ID) id).holds then { s with DeletedAt := some now } else s) =
      if s.ID = id then { s with DeletedAt := some now } else s := by
  by_cases h : s.ID = id <;> simp [sqlEq, Tri.holds, h]

/-- C18: whatever statement fails or none, `DeleteScrapeConfig(id)` leaves every table with
the same rows in the same order, `evidences` as it was, every config item whose scraper_id
is not `id` (NULL included) as it was, every `config_scrapers` row with another id as it was,
and the row with that id changed in `deleted_at` at most; a config item keeps its id. -/
theorem DeleteScrapeConfig_frame (faults : DeleteFaults) (goNow dbNow : Nat) (id : String)
    (db : Store) :
    ∃ (f : ConfigScraper → ConfigScraper) (g : ConfigItem → ConfigItem),
      (DeleteScrapeConfig faults goNow dbNow id db).1 =
        { config_scrapers := db.config_scrapers.map f
          config_items := db.config_items.map g
          evidences := db.evidences } ∧
      (∀ s, (f s).ID = s.ID ∧ (f s).Name = s.Name ∧ (f s).Spec = s.Spec ∧
        (f s).Source = s.Source ∧ (s.ID ≠ id → f s = s)) ∧
      (∀ c, (g c).id = c.id ∧ (c.scraper_id ≠ some id → g c = c)) ∧
      (DeleteScrapeConfig faults goNow dbNow id db).1.config_scrapers.length =
        db.config_scrapers.length ∧
      (DeleteScrapeConfig faults goNow dbNow id db).1.config_items.length =
        db.config_items.length := by
  have hf : ∀ s : ConfigScraper,
      (if s.ID = id then { s with DeletedAt := some goNow } else s).ID = s.ID ∧
      (if s.ID = id then { s with DeletedAt := some goNow } else s).Name = s.Name ∧
      (if s.ID = id then { s with DeletedAt := some goNow } else s).Spec = s.Spec ∧
      (if s.ID = id then { s with DeletedAt := some goNow } else s).Source = s.Source ∧
      (s.ID ≠ id → (if s.ID = id then { s with DeletedAt := some goNow } else s) = s) := by
    intro s
    by_cases h : s.ID = id
    · simp [h]
    · simp [h]
  have hs : (updateScraperDeletedAt goNow id db).config_scrapers =
      db.config_scrapers.map fun s =>
        if s.ID = id then { s with DeletedAt := some goNow } else s := by
    simp only [updateScraperDeletedAt]
    apply List.map_congr_left
    intro s _
    exact updateScraperDeletedAt_row goNow id s
  obtain ⟨f1, f2, f3⟩ := faults
  cases f1 with
  | some e =>
    refine ⟨fun s => s, fun c => c, ?_, fun s => ⟨rfl, rfl, rfl, rfl, fun _ => rfl⟩,
      fun c => ⟨rfl, fun _ => rfl⟩, rfl, rfl⟩
    simp [DeleteScrapeConfig]
  | none =>
    cases f2 with
    | some e =>
      refine ⟨fun s => if s.ID = id then { s with DeletedAt := some goNow } else s,
        fun c => c, ?_, hf, fun c => ⟨rfl, fun _ => rfl⟩, ?_, rfl⟩
      · simp only [DeleteScrapeConfig, List.map_id']
        rw [← hs]
        rfl
      · simp [DeleteScrapeConfig, updateScraperDeletedAt]
    | none =>
      cases f3 with
      | some e =>
        refine ⟨fun s => if s.ID = id then { s with DeletedAt := some goNow } else s,
          detachRow (selectQuery db) id, ?_, hf,
          fun c => ⟨(detachRow_frame _ id c).1, (detachRow_frame _ id c).2.2⟩, ?_, ?_⟩
        · simp only [DeleteScrapeConfig]
          rw [← hs]
          rfl
        · simp [DeleteScrapeConfig, updateScraperDeletedAt, detachLinked]
        · simp [DeleteScrapeConfig, updateScraperDeletedAt, detachLinked]
      | none =>
        refine ⟨fun s => if s.ID = id then { s with DeletedAt := some goNow } else s,
          fun c => softDeleteRow (selectQuery db) dbNow id (detachRow (selectQuery db) id c),
          ?_, hf, fun c => ⟨?_, fun hne => ?_⟩, ?_, ?_⟩
        · simp only [DeleteScrapeConfig]
          rw [← hs]
          simp only [softDeleteRemaining, detachLinked, List.map_map]
          rfl
        · show (softDeleteRow (selectQuery db) dbNow id (detachRow (selectQuery db) id c)).id =
            c.id
          rw [(softDeleteRow_frame _ dbNow id _).1, (detachRow_frame _ id c).1]
        · show softDeleteRow (selectQuery db) dbNow id (detachRow (selectQuery db) id c) = c
          rw [(detachRow_frame (selectQuery db) id c).2.2 hne]
          exact (softDeleteRow_frame _ dbNow id c).2.2 hne
        · simp [DeleteScrapeConfig, updateScraperDeletedAt, detachLinked, softDeleteRemaining]
        · simp [DeleteScrapeConfig, updateScraperDeletedAt, detachLinked, softDeleteRemaining]

/-! ## Theorems: failures that stay local -/

theorem normalizeConfig_of_failure (r : ScrapeResult) (payload : Payload)
    (hcfg : r.Config = some payload)
    (hfail : (∃ err, Marshal payload = .error err) ∨
      ∃ raw err, Marshal payload = .ok raw ∧ ParseJQ raw = .error err) :
    normalizeConfig r = r := by
  unfold normalizeConfig
  rw [hcfg]
  rcases hfail with ⟨err, he⟩ | ⟨raw, err, hm, hp⟩
  · simp [he]
  · simp [hm, hp]

/-- The edges a result leaves the loop body with: its own, then the new ones. -/
theorem resolveOne_RelationshipResults (config : Option Azure) (r r1 : ScrapeResult)
    (h : resolveOne config r = some r1) :
    r1.RelationshipResults =
      r.RelationshipResults ++
        match config with
        | some c => newEdges c r
        | none => [] := by
  cases config with
  | some c =>
    rw [resolveOne_some, Option.some.injEq] at h
    subst h
    exact resolveWith_RelationshipResults c r
  | none =>
    unfold resolveOne at h
    by_cases hid : r.ID = ""
    · simp only [hid, if_true, Option.some.injEq] at h
      subst h
      simp
    · simp only [hid, if_false] at h
      by_cases hty : r.Type_ = ConfigTypePrefix ++ "SUBSCRIPTION"
      · simp only [hty, if_true, Option.some.injEq] at h
        subst h
        simp [normalizeConfig_RelationshipResults]
      · simp [hty] at h

/-- Whether the loop body returns depends on the ID and the type of the result only. -/
theorem resolveOne_isSome_congr (config : Option Azure) (r r2 r1 : ScrapeResult)
    (h : resolveOne config r = some r1) (hid : r2.ID = r.ID) (hty : r2.Type_ = r.Type_) :
    ∃ r3, resolveOne config r2 = some r3 := by
  cases config with
  | some c => exact ⟨_, resolveOne_some c r2⟩
  | none =>
    unfold resolveOne at h ⊢
    rw [hid, hty]
    by_cases h0 : r.ID = ""
    · exact ⟨r2, by simp [h0]⟩
    · by_cases h1 : r.Type_ = ConfigTypePrefix ++ "SUBSCRIPTION"
      · exact ⟨normalizeConfig r2, by simp [h0, h1]⟩
      · simp [h0, h1] at h

/-- C11: a result with a non-empty ID whose payload does not serialise, or on whose serialised
payload the filter fails, stays in the output of the resolver pass at its position with its
payload as it was, and gets the edges that every result of the same ID, type and edges gets,
whatever its payload. -/
theorem Scrape_normalization_failure_keeps_result (config : Option Azure)
    (results out : List ScrapeResult) (i : Nat) (r : ScrapeResult) (payload : Payload)
    (h : resolvePass config results = some out) (hr : results[i]? = some r)
    (hid : r.ID ≠ "") (hcfg : r.Config = some payload)
    (hfail : (∃ err, Marshal payload = .error err) ∨
      ∃ raw err, Marshal payload = .ok raw ∧ ParseJQ raw = .error err) :
    out.length = results.length ∧
    ∃ r1, out[i]? = some r1 ∧ r1.Config = some payload ∧ r1.ID = r.ID ∧
      ∀ r2 : ScrapeResult, r2.ID = r.ID → r2.Type_ = r.Type_ →
        r2.RelationshipResults = r.RelationshipResults →
        ∃ r3, resolveOne config r2 = some r3 ∧
          r3.RelationshipResults = r1.RelationshipResults := by
  refine ⟨resolvePass_length config results out h, ?_⟩
  obtain ⟨r1, hout, hone⟩ := resolvePass_getElem config results out h i r hr
  have hnorm := normalizeConfig_of_failure r payload hcfg hfail
  refine ⟨r1, hout, ?_, ?_, ?_⟩
  · have hone1 := hone
    unfold resolveOne at hone1
    simp only [hid, if_false, hnorm] at hone1
    by_cases hty : r.Type_ = ConfigTypePrefix ++ "SUBSCRIPTION"
    · simp only [hty, if_true, Option.some.injEq] at hone1
      subst hone1
      exact hcfg
    · simp only [hty, if_false] at hone1
      cases config with
      | none => simp at hone1
      | some c =>
        simp only [Option.some.injEq] at hone1
        subst hone1
        rw [relate_Config]
        exact hcfg
  · obtain ⟨⟨cfg, edges, hr1⟩, _⟩ := resolveOne_frame config r r1 hone
    subst hr1
    rfl
  · intro r2 hid2 hty2 hrel2
    obtain ⟨r3, h3⟩ := resolveOne_isSome_congr config r r2 r1 hone hid2 hty2
    refine ⟨r3, h3, ?_⟩
    rw [resolveOne_RelationshipResults config r2 r3 h3,
      resolveOne_RelationshipResults config r r1 hone, hrel2]
    cases config with
    | none => rfl
    | some c => simp only [newEdges_congr c r2 r hid2 hty2]

/-- C11, witness: a virtual machine whose payload holds a value `json.Marshal` rejects. -/
theorem Scrape_normalization_failure_keeps_result_witness :
    [resolveWith (sampleConfig "s") unsupportedResult].length = [unsupportedResult].length ∧
    ∃ r1, [resolveWith (sampleConfig "s") unsupportedResult][0]? = some r1 ∧
      r1.Config = some (.unsupported "json: unsupported value: NaN") ∧
      r1.ID = unsupportedResult.ID ∧
      ∀ r2 : ScrapeResult, r2.ID = unsupportedResult.ID → r2.Type_ = unsupportedResult.Type_ →
        r2.RelationshipResults = unsupportedResult.RelationshipResults →
        ∃ r3, resolveOne (some (sampleConfig "s")) r2 = some r3 ∧
          r3.RelationshipResults = r1.RelationshipResults :=
  Scrape_normalization_failure_keeps_result (some (sampleConfig "s")) [unsupportedResult]
    [resolveWith (sampleConfig "s") unsupportedResult] 0 unsupportedResult
    (.unsupported "json: unsupported value: NaN") rfl rfl (by decide) rfl
    (Or.inl ⟨"json: unsupported value: NaN", rfl⟩)

theorem hydrateConnection_error_iff (w : BlockWorld) (t : Azure) :
    (∃ e, hydrateConnection w t = .error e) ↔
      (t.ConnectionName ≠ "" ∧ ((∃ e, w.connection = .error e) ∨ w.connection = .ok none)) ∨
      (t.ConnectionName = "" ∧
        ((∃ e, w.clientID = .error e) ∨ ∃ e, w.clientSecret = .error e)) := by
  unfold hydrateConnection
  by_cases hn : t.ConnectionName = ""
  · simp only [hn, ne_eq, not_true_eq_false, if_false, false_and, false_or, true_and]
    cases hid : w.clientID with
    | error e => simp
    | ok v =>
      cases hs : w.clientSecret with
      | error e => simp
      | ok v2 => simp
  · simp only [ne_eq, hn, not_false_eq_true, if_true, true_and, false_and, or_false]
    cases hc : w.connection with
    | error e => simp
    | ok o =>
      cases o with
      | none => simp
      | some conn => simp

/-- The round of the first loop for a block whose connection or credentials fail: one
error-only result more, `azure.config` untouched, no fetch. -/
theorem scrapeBlock_of_failure (U : Unicode) (st : ScrapeState) (t : Azure) (w : BlockWorld)
    (msg : String)
    (hfail : (∃ e, hydrateConnection w t = .error e ∧
        msg = "failed to populate connection" ++ ": " ++ e) ∨
      ∃ config e, hydrateConnection w t = .ok config ∧ w.credential = .error e ∧
        msg = "failed to get credentials for azure" ++ ": " ++ e) :
    scrapeBlock U st (t, w) =
      some { results := st.results ++ [errorResult msg], config := st.config } := by
  unfold scrapeBlock
  rcases hfail with ⟨e, he, hmsg⟩ | ⟨config, e, hh, hc, hmsg⟩
  · simp only [he, Errorf, hmsg]
  · simp only [hh, hc, Errorf, hmsg]

theorem Scrape_congr_block (U : Unicode) (before_ after_ : List (Azure × BlockWorld))
    (b1 b2 : Azure × BlockWorld) (h : ∀ st, scrapeBlock U st b1 = scrapeBlock U st b2) :
    Scrape U (before_ ++ b1 :: after_) = Scrape U (before_ ++ b2 :: after_) := by
  unfold Scrape
  rw [scrapeBlocks_append, scrapeBlocks_append]
  cases scrapeBlocks U ⟨[], none⟩ before_ with
  | none => rfl
  | some st => simp only [scrapeBlocks, h]

/-- The output of `Scrape` with one failing block in the middle: the output without the
block, with the error-only result put where the block stands. -/
theorem Scrape_of_failure (U : Unicode) (before_ after_ : List (Azure × BlockWorld))
    (b : Azure × BlockWorld) (msg : String)
    (hb : ∀ st : ScrapeState, scrapeBlock U st b =
      some { results := st.results ++ [errorResult msg], config := st.config }) :
    Scrape U (before_ ++ b :: after_) =
      (Scrape U (before_ ++ after_)).map fun out =>
        out.take (((scrapeBlocks U ⟨[], none⟩ before_).map (·.results.length)).getD 0) ++
          errorResult msg ::
            out.drop (((scrapeBlocks U ⟨[], none⟩ before_).map (·.results.length)).getD 0) := by
  rw [Scrape_eq, Scrape_eq, scrapeBlocks_append, scrapeBlocks_append]
  cases hpre : scrapeBlocks U ⟨[], none⟩ before_ with
  | none => rfl
  | some st1 =>
    simp only [scrapeBlocks, hb, Option.map_some', Option.getD_some]
    rw [scrapeBlocks_shift U ⟨st1.results ++ [errorResult msg], st1.config⟩ after_,
      scrapeBlocks_shift U st1 after_]
    cases hpost : scrapeBlocks U ⟨[], st1.config⟩ after_ with
    | none => rfl
    | some st2 =>
      simp only [Option.map_some', Option.some.injEq]
      cases hc : st2.config with
      | none =>
        simp only [List.append_assoc, List.singleton_append]
        rw [List.take_left, List.drop_left]
      | some c =>
        simp only [List.map_append, List.append_assoc, List.map_cons, List.map_nil,
          List.singleton_append, resolveWith_errorResult]
        have hlen : st1.results.length = (st1.results.map (resolveWith c)).length := by simp
        rw [hlen, List.take_left, List.drop_left]

/-- C12: a block whose connection cannot be hydrated or whose credentials cannot be built
adds one error-only result and leaves `azure.config` as it was; what its clients and its
advisor analysis would answer is never asked; and the output of `Scrape` is the output
without the block, with that one result put where the block stands. Hydration fails exactly
when the named connection lookup fails or finds nothing, or, without a connection name, the
client id or the client secret lookup fails. -/
theorem Scrape_connection_failure_isolated (U : Unicode)
    (before_ after_ : List (Azure × BlockWorld)) (t : Azure) (w : BlockWorld) (msg : String)
    (hfail : (∃ e, hydrateConnection w t = .error e ∧
        msg = "failed to populate connection" ++ ": " ++ e) ∨
      ∃ config e, hydrateConnection w t = .ok config ∧ w.credential = .error e ∧
        msg = "failed to get credentials for azure" ++ ": " ++ e) :
    (∀ st : ScrapeState, scrapeBlock U st (t, w) =
      some { results := st.results ++ [errorResult msg], config := st.config }) ∧
    (errorResult msg).ID = "" ∧ (errorResult msg).Error = some msg ∧
    (∀ (client : Category → Except String Pager) (advisor : List ScrapeResult),
      Scrape U (before_ ++ (t, { w with client := client, advisor := advisor }) :: after_) =
        Scrape U (before_ ++ (t, w) :: after_)) ∧
    Scrape U (before_ ++ (t, w) :: after_) =
      (Scrape U (before_ ++ after_)).map (fun out =>
        out.take (((scrapeBlocks U ⟨[], none⟩ before_).map (·.results.length)).getD 0) ++
          errorResult msg ::
            out.drop (((scrapeBlocks U ⟨[], none⟩ before_).map (·.results.length)).getD 0)) ∧
    ((∃ e, hydrateConnection w t = .error e) ↔
      (t.ConnectionName ≠ "" ∧ ((∃ e, w.connection = .error e) ∨ w.connection = .ok none)) ∨
      (t.ConnectionName = "" ∧
        ((∃ e, w.clientID = .error e) ∨ ∃ e, w.clientSecret = .error e))) := by
  have hb := fun st => scrapeBlock_of_failure U st t w msg hfail
  refine ⟨hb, rfl, rfl, ?_, Scrape_of_failure U before_ after_ (t, w) msg hb,
    hydrateConnection_error_iff w t⟩
  intro client advisor
  apply Scrape_congr_block
  intro st
  rw [hb st]
  exact scrapeBlock_of_failure U st t { w with client := client, advisor := advisor } msg hfail

/-- C12, witness: a block whose client id cannot be looked up, after a block that is
scraped. -/
theorem Scrape_connection_failure_isolated_witness :
    (Scrape ascii ([(sampleAzure "S", threeCategoryWorld)] ++
        (sampleAzure "T", unresolvedWorld) :: [])).map (List.map fun r => (r.ID, r.Error)) =
      some [("/subscriptions/s/resourcegroups/rg", none),
            ("", some "failed read virtual machine page: throttled"),
            ("/subscriptions/s/resourcegroups/rg/lb1", none),
            ("", some "failed to populate connection: failed to get client id: secret not found")]
    ∧
    Scrape ascii ([(sampleAzure "S", threeCategoryWorld)] ++
        (sampleAzure "T", unresolvedWorld) :: []) =
      (Scrape ascii ([(sampleAzure "S", threeCategoryWorld)] ++ [])).map (fun out =>
        out.take (((scrapeBlocks ascii ⟨[], none⟩ [(sampleAzure "S", threeCategoryWorld)]).map
            (·.results.length)).getD 0) ++
          errorResult "failed to populate connection: failed to get client id: secret not found"
            :: out.drop
              (((scrapeBlocks ascii ⟨[], none⟩ [(sampleAzure "S", threeCategoryWorld)]).map
                (·.results.length)).getD 0)) :=
  ⟨by decide,
    (Scrape_connection_failure_isolated ascii [(sampleAzure "S", threeCategoryWorld)] []
      (sampleAzure "T") unresolvedWorld
      "failed to populate connection: failed to get client id: secret not found"
      (Or.inl ⟨"failed to get client id: secret not found", rfl, by decide⟩)).2.2.2.2.1⟩

/-! ## Theorems: the accumulator and the shared configuration -/

/-- The seventeen appends of one block, written out. -/
theorem fetchAll_of_results (U : Unicode) (config : Azure) (w : BlockWorld)
    (R : Category → List ScrapeResult)
    (hfetch : ∀ cat, fetch U config cat (w.client cat) = some (R cat)) :
    fetchAll U config w =
      some (R .resourceGroups ++ R .virtualMachines ++ R .loadBalancers ++ R .virtualNetworks ++
        R .containerRegistries ++ R .firewalls ++ R .databases ++ R .k8s ++ R .subscriptions ++
        R .storageAccounts ++ R .appServices ++ R .dns ++ R .privateDNSZones ++
        R .trafficManagerProfiles ++ R .networkSecurityGroups ++ R .publicIPAddresses ++
        w.advisor) := by
  simp only [fetchAll, Category.declared, Category.beforeSubscriptions,
    Category.afterSubscriptions, List.cons_append, List.nil_append, fetchEach, hfetch,
    List.append_nil, List.append_assoc]

/-- C14: for a single block that gets its credentials and whose fetches return, `Scrape`
returns the results of resource groups, virtual machines, load balancers, virtual networks,
container registries, firewalls, databases, Kubernetes clusters, subscriptions, storage
accounts, app services, DNS zones, private DNS zones, traffic manager profiles, network
security groups, public IP addresses and the advisor analysis, in this order, each resolved
in place: as many entries as the categories have together, with the same IDs in the same
order, nothing merged. -/
theorem Scrape_single_block_concatenation (U : Unicode) (t config : Azure) (w : BlockWorld)
    (R : Category → List ScrapeResult)
    (hh : hydrateConnection w t = .ok config) (hc : w.credential = .ok ())
    (hfetch : ∀ cat, fetch U config cat (w.client cat) = some (R cat)) :
    ∃ out, Scrape U [(t, w)] = some out ∧
      out =
        (R .resourceGroups ++ R .virtualMachines ++ R .loadBalancers ++ R .virtualNetworks ++
          R .containerRegistries ++ R .firewalls ++ R .databases ++ R .k8s ++
          R .subscriptions ++ R .storageAccounts ++ R .appServices ++ R .dns ++
          R .privateDNSZones ++ R .trafficManagerProfiles ++ R .networkSecurityGroups ++
          R .publicIPAddresses ++ w.advisor).map (resolveWith config) ∧
      out.length =
        (R .resourceGroups).length + (R .virtualMachines).length + (R .loadBalancers).length +
          (R .virtualNetworks).length + (R .containerRegistries).length +
          (R .firewalls).length + (R .databases).length + (R .k8s).length +
          (R .subscriptions).length + (R .storageAccounts).length + (R .appServices).length +
          (R .dns).length + (R .privateDNSZones).length + (R .trafficManagerProfiles).length +
          (R .networkSecurityGroups).length + (R .publicIPAddresses).length +
          w.advisor.length ∧
      out.map (·.ID) =
        (R .resourceGroups ++ R .virtualMachines ++ R .loadBalancers ++ R .virtualNetworks ++
          R .containerRegistries ++ R .firewalls ++ R .databases ++ R .k8s ++
          R .subscriptions ++ R .storageAccounts ++ R .appServices ++ R .dns ++
          R .privateDNSZones ++ R .trafficManagerProfiles ++ R .networkSecurityGroups ++
          R .publicIPAddresses ++ w.advisor).map (·.ID) := by
  have hscrape : Scrape U [(t, w)] =
      some ((R .resourceGroups ++ R .virtualMachines ++ R .loadBalancers ++
        R .virtualNetworks ++ R .containerRegistries ++ R .firewalls ++ R .databases ++
        R .k8s ++ R .subscriptions ++ R .storageAccounts ++ R .appServices ++ R .dns ++
        R .privateDNSZones ++ R .trafficManagerProfiles ++ R .networkSecurityGroups ++
        R .publicIPAddresses ++ w.advisor).map (resolveWith config)) := by
    have h := Scrape_block U [] [] t config w hh hc
    simp only [List.nil_append, scrapeBlocks, fetchAll_of_results U config w R hfetch,
      List.append_nil] at h
    rw [h]
    exact resolvePass_some config _
  refine ⟨_, hscrape, rfl, ?_, ?_⟩
  · simp only [List.length_map, List.length_append]
  · rw [List.map_map]
    apply List.map_congr_left
    intro r _
    exact resolveWith_ID config r

/-- C14, witness: a block in which the virtual machines fetch and the databases fetch return
the same resource: both entries are in the output, with the second database and the advisor
result after them. -/
theorem Scrape_single_block_concatenation_witness :
    (Scrape ascii [(sampleAzure "S", overlappingWorld)]).map
        (List.map fun r => (r.ID, r.ConfigClass)) =
      some [("/subscriptions/s/resourcegroups/rg/x1", "VirtualMachine"),
            ("/subscriptions/s/resourcegroups/rg/x1", "RelationalDatabase"),
            ("/subscriptions/s/resourcegroups/rg/db2", "RelationalDatabase"),
            ("", "")] ∧
    ∃ out, Scrape ascii [(sampleAzure "S", overlappingWorld)] = some out ∧
      out.length = 0 + 1 + 0 + 0 + 0 + 0 + 2 + 0 + 0 + 0 + 0 + 0 + 0 + 0 + 0 + 0 + 1 :=
  ⟨by decide,
    match Scrape_single_block_concatenation ascii (sampleAzure "S") (sampleConfig "S")
        overlappingWorld
        (fun cat => (fetch ascii (sampleConfig "S") cat (overlappingWorld.client cat)).getD [])
        rfl rfl (fun cat => by cases cat <;> rfl) with
    | ⟨out, hout, _, hlen, _⟩ => ⟨out, hout, hlen⟩⟩

theorem scrapeBlock_config_eq (U : Unicode) (st st1 : ScrapeState) (b : Azure × BlockWorld)
    (rest : List (Azure × BlockWorld)) (h : scrapeBlock U st b = some st1) :
    lastConfigFrom st.config (b :: rest) = lastConfigFrom st1.config rest := by
  obtain ⟨t, w⟩ := b
  unfold scrapeBlock at h
  simp only [lastConfigFrom]
  cases hh : hydrateConnection w t with
  | error e =>
    simp only [hh, Option.some.injEq] at h
    subst h
    rfl
  | ok config =>
    simp only [hh] at h
    cases hcr : w.credential with
    | error e =>
      simp only [hcr, Option.some.injEq] at h
      subst h
      rfl
    | ok u =>
      simp only [hcr] at h
      cases hf : fetchAll U config w with
      | none => simp [hf] at h
      | some rs =>
        simp only [hf, Option.some.injEq] at h
        subst h
        rfl

/-- After the first loop `azure.config` is the configuration of the last block whose
credentials were constructed. -/
theorem scrapeBlocks_config_eq (U : Unicode) (st st1 : ScrapeState)
    (blocks : List (Azure × BlockWorld)) (h : scrapeBlocks U st blocks = some st1) :
    st1.config = lastConfigFrom st.config blocks := by
  induction blocks generalizing st with
  | nil =>
    simp only [scrapeBlocks, Option.some.injEq] at h
    subst h
    rfl
  | cons b bs ih =>
    simp only [scrapeBlocks] at h
    cases hb : scrapeBlock U st b with
    | none => simp [hb] at h
    | some s1 =>
      simp only [hb] at h
      rw [ih s1 h, scrapeBlock_config_eq U st s1 b bs hb]

theorem newEdges_targets (config : Azure) (r : ScrapeResult) :
    ∀ e ∈ newEdges config r,
      e.RelatedExternalID =
          { ConfigType := "Azure::SUBSCRIPTION"
            ExternalID := ["/subscriptions/" ++ config.SubscriptionID] } ∨
        e.RelatedExternalID =
          { ConfigType := "Azure::MICROSOFT.RESOURCES/RESOURCEGROUPS"
            ExternalID :=
              ["/subscriptions/" ++ config.SubscriptionID ++ "/resourcegroups/" ++
                extractResourceGroup r.ID] } := by
  intro e he
  unfold newEdges at he
  split at he
  · simp at he
  · split at he
    · simp only [List.mem_cons, List.mem_singleton, List.not_mem_nil, or_false] at he
      rcases he with he | he
      · subst he
        exact Or.inl rfl
      · subst he
        exact Or.inr rfl
    · simp only [List.mem_singleton] at he
      subst he
      exact Or.inl rfl

/-- C15: whatever the number of blocks, every edge that the resolver appends to a result,
under whichever block the result was discovered, has as its target the subscription of the
last block whose credentials were constructed, or a resource group under that subscription;
when no block got its credentials nothing is appended. -/
theorem Scrape_edges_name_last_configuration (U : Unicode)
    (blocks : List (Azure × BlockWorld)) (out : List ScrapeResult)
    (h : Scrape U blocks = some out) :
    ∃ results, (scrapeBlocks U ⟨[], none⟩ blocks).map (·.results) = some results ∧
      out.length = results.length ∧
      ∀ (i : Nat) (r : ScrapeResult), results[i]? = some r →
        ∃ r1 edges, out[i]? = some r1 ∧
          r1.RelationshipResults = r.RelationshipResults ++ edges ∧
          (lastConfig blocks = none → edges = []) ∧
          ∀ final, lastConfig blocks = some final → ∀ e ∈ edges,
            e.RelatedExternalID =
                { ConfigType := "Azure::SUBSCRIPTION"
                  ExternalID := ["/subscriptions/" ++ final.SubscriptionID] } ∨
              e.RelatedExternalID =
                { ConfigType := "Azure::MICROSOFT.RESOURCES/RESOURCEGROUPS"
                  ExternalID :=
                    ["/subscriptions/" ++ final.SubscriptionID ++ "/resourcegroups/" ++
                      extractResourceGroup r.ID] } := by
  unfold Scrape at h
  cases hst : scrapeBlocks U ⟨[], none⟩ blocks with
  | none => simp [hst] at h
  | some st =>
    simp only [hst] at h
    have hcfg : st.config = lastConfig blocks := scrapeBlocks_config_eq U _ st blocks hst
    refine ⟨st.results, rfl, resolvePass_length st.config st.results out h, fun i r hr => ?_⟩
    obtain ⟨r1, hout, hone⟩ := resolvePass_getElem st.config st.results out h i r hr
    have hedges : (∀ c, st.config = some c →
          r1.RelationshipResults = r.RelationshipResults ++ newEdges c r) ∧
        (st.config = none → r1.RelationshipResults = r.RelationshipResults ++ []) := by
      generalize st.config = cfg at hone
      cases cfg with
      | none =>
        exact ⟨fun c hc => by simp at hc,
          fun _ => resolveOne_RelationshipResults none r r1 hone⟩
      | some c0 =>
        refine ⟨fun c hc => ?_, fun hc => by simp at hc⟩
        rw [Option.some.injEq] at hc
        subst hc
        exact resolveOne_RelationshipResults (some c0) r r1 hone
    cases hc : st.config with
    | none =>
      refine ⟨r1, [], hout, hedges.2 hc, fun _ => rfl, fun final _ e he => ?_⟩
      simp at he
    | some c =>
      refine ⟨r1, newEdges c r, hout, hedges.1 c hc, fun hnone => ?_,
        fun final hfinal e he => ?_⟩
      · rw [← hcfg, hc] at hnone
        simp at hnone
      · rw [← hcfg, hc, Option.some.injEq] at hfinal
        subst hfinal
        exact newEdges_targets c r e he

/-- C15, witness: a machine discovered under the block of subscription `aaaa`, followed by a
block of subscription `bbbb` and a block whose credentials fail: both edges of the machine
name `bbbb`. -/
theorem Scrape_edges_name_last_configuration_witness :
    (Scrape ascii [(sampleAzure "aaaa", machineWorld), (sampleAzure "bbbb", sampleWorld),
        (sampleAzure "cccc", unresolvedWorld)]).map
        (List.map fun r => (r.ID, r.RelationshipResults.map (·.RelatedExternalID.ExternalID))) =
      some [("/subscriptions/aaaa/resourcegroups/rg/vm1",
              [["/subscriptions/bbbb"], ["/subscriptions/bbbb/resourcegroups/rg"]]),
            ("", [])] ∧
    lastConfig [(sampleAzure "aaaa", machineWorld), (sampleAzure "bbbb", sampleWorld),
        (sampleAzure "cccc", unresolvedWorld)] = some (sampleConfig "bbbb") ∧
    ∃ results,
      (scrapeBlocks ascii ⟨[], none⟩ [(sampleAzure "aaaa", machineWorld),
        (sampleAzure "bbbb", sampleWorld), (sampleAzure "cccc", unresolvedWorld)]).map
          (·.results) = some results ∧
      ((Scrape ascii [(sampleAzure "aaaa", machineWorld), (sampleAzure "bbbb", sampleWorld),
        (sampleAzure "cccc", unresolvedWorld)]).getD []).length = results.length :=
  ⟨by decide, by decide,
    match Scrape_edges_name_last_configuration ascii
        [(sampleAzure "aaaa", machineWorld), (sampleAzure "bbbb", sampleWorld),
          (sampleAzure "cccc", unresolvedWorld)]
        ((Scrape ascii [(sampleAzure "aaaa", machineWorld), (sampleAzure "bbbb", sampleWorld),
          (sampleAzure "cccc", unresolvedWorld)]).getD []) rfl with
    | ⟨results, hres, hlen, _⟩ => ⟨results, hres, hlen⟩⟩

/-- C13: a subscription without a display name on a page that was read makes
`fetchSubscriptions` panic, and with it the whole call of `Scrape`; a virtual machine without
a name is mapped to a result with the empty name. -/
theorem fetchSubscriptions_nil_display_name :
    (fetchSubscriptions ascii (sampleConfig "0a1b")
      (.ok [.ok [namelessItem "/subscriptions/0a1b" "Microsoft.Resources/subscriptions"]])).isSome
      = false ∧
    (Scrape ascii [(sampleAzure "0a1b", namelessSubscriptionWorld)]).isSome = false ∧
    (Scrape ascii [(sampleAzure "0a1b", namelessMachineWorld)]).map
        (List.map fun r => (r.ID, r.Name)) =
      some [("/subscriptions/0a1b/resourcegroups/rg1/vm1", "")] := by
  decide

/-- C16: a call of `Scrape` that discovers the resource group `RG1` returns it with the type
`Azure::Microsoft.Resources/resourceGroups` and two edges: the ownership edge and a
containment edge whose target is the resource group's own id. -/
theorem Scrape_resource_group_contains_itself :
    (Scrape ascii [(sampleAzure "0a1b", resourceGroupWorld)]).map
        (List.map fun r => (r.ID, r.Type_, r.RelationshipResults)) =
      some [("/subscriptions/0a1b/resourcegroups/rg1", "Azure::Microsoft.Resources/resourceGroups",
        [{ ConfigExternalID :=
             { ExternalID := ["/subscriptions/0a1b/resourcegroups/rg1"]
               ConfigType := "Azure::Microsoft.Resources/resourceGroups" }
           RelatedExternalID :=
             { ExternalID := ["/subscriptions/0a1b"], ConfigType := "Azure::SUBSCRIPTION" }
           Relationship := "SubscriptionMicrosoft.Resources/resourceGroups" },
         { ConfigExternalID :=
             { ExternalID := ["/subscriptions/0a1b/resourcegroups/rg1"]
               ConfigType := "Azure::Microsoft.Resources/resourceGroups" }
           RelatedExternalID :=
             { ExternalID := ["/subscriptions/0a1b/resourcegroups/rg1"]
               ConfigType := "Azure::MICROSOFT.RESOURCES/RESOURCEGROUPS" }
           Relationship := "ResourcegroupMicrosoft.Resources/resourceGroups" }])] := by
  decide

end ConfigDB
